import Mathlib

/-!
Shallow embedding of the entity-resolution and delivery-scheduling engine
(`lookup.py`, `delivery_logic.py`, `ai_customer_match.py`).

Python strings are modelled as `List Char`.  `str.replace` is `pyReplace`
(leftmost, non-overlapping), `in` (substring) is `hasSub`, `str.strip()` is
`pyStrip`, `str.lower()` is `pyLower` (modelled on the ASCII and Latin-1
uppercase ranges, which covers every character the code manipulates).
Python floats are modelled as exact rationals; since `Rat.add`/`Rat.mul` are
irreducible we use `qadd`/`qmul` built on `Rat.divInt`, which compute.
Non-structural recursions take a fuel argument equal to the input length
(each step consumes at least one character, so that fuel always suffices);
this keeps every definition computable by kernel reduction.
Pandas DataFrames are modelled as lists of rows in table order; external
libraries (`rapidfuzz.fuzz.token_set_ratio`, `difflib.SequenceMatcher.ratio`,
`dateutil.parser.parse`, `json.loads`) are oracle parameters.
-/

/-- Shallow model of a Python `str` as a list of characters. -/
abbrev Str := List Char

/-- Convert a Lean string literal to the `Str` model. -/
def str (s : String) : Str := s.toList

/-- Python whitespace characters stripped by `str.strip()` (the ones relevant
to this code base). -/
def isPySpace (c : Char) : Bool :=
  c = ' ' || c = '\t' || c = '\n' || c = '\x0d' || c = '\x0b' || c = '\x0c'

/-- Python `str.strip()`: remove leading and trailing whitespace. -/
def pyStrip (s : Str) : Str :=
  ((s.dropWhile isPySpace).reverse.dropWhile isPySpace).reverse

/-- Numeric form of Python `str.lower()` on a code point: ASCII `A`-`Z` and the
Latin-1 uppercase range `À`-`Þ` (except `×`) move down by 32. -/
def pyLowerNat (n : Nat) : Nat :=
  if 65 ≤ n ∧ n ≤ 90 then n + 32
  else if 192 ≤ n ∧ n ≤ 222 ∧ n ≠ 215 then n + 32
  else n

/-- Python `str.lower()` on a single character (see `pyLowerNat`). -/
def pyLowerChar (c : Char) : Char :=
  if 65 ≤ c.toNat ∧ c.toNat ≤ 90 then Char.ofNat (c.toNat + 32)
  else if 192 ≤ c.toNat ∧ c.toNat ≤ 222 ∧ c.toNat ≠ 215 then Char.ofNat (c.toNat + 32)
  else c

/-- Python `str.lower()` on a whole string. -/
def pyLower (s : Str) : Str := s.map pyLowerChar

/-- Fuel-indexed worker for `pyReplace`; one character of the input is
consumed per step, so fuel equal to the input length always suffices. -/
def pyReplaceF (pat rep : Str) : Nat → Str → Str
  | 0, s => s
  | _+1, [] => []
  | f+1, c :: rest =>
    if pat ≠ [] ∧ pat.isPrefixOf (c :: rest) then
      rep ++ pyReplaceF pat rep f ((c :: rest).drop pat.length)
    else
      c :: pyReplaceF pat rep f rest

/-- Python `str.replace(pat, rep)`: leftmost, non-overlapping replacement of
every occurrence.  (The code never calls it with an empty pattern.) -/
def pyReplace (pat rep s : Str) : Str := pyReplaceF pat rep s.length s

/-- Python substring test `pat in s`. -/
def hasSub (pat : Str) : Str → Bool
  | [] => pat.isEmpty
  | c :: rest => pat.isPrefixOf (c :: rest) || hasSub pat rest

/-- Python `str.lstrip("0")` composed with the pervasive `or s` idiom:
strip leading zeros but fall back to the original when all characters go. -/
def lstripZeroOr (s : Str) : Str :=
  let t := s.dropWhile (· = '0')
  if t = [] then s else t

/-- Python `str.startswith(pat)`. -/
def pyStarts (pat s : Str) : Bool := pat.isPrefixOf s

/-- Python `str.endswith(pat)`. -/
def pyEnds (pat s : Str) : Bool := pat.isSuffixOf s

/-- ASCII digit test (Python `\d` on this data). -/
def isDig (c : Char) : Bool := '0' ≤ c ∧ c ≤ '9'

/-- ASCII lowercase letter test (`[a-z]`). -/
def isLowerAZ (c : Char) : Bool := 'a' ≤ c ∧ c ≤ 'z'

/-- Regex word-character test `\w` restricted to ASCII (`[A-Za-z0-9_]`);
used for `\b` boundaries. -/
def isWordChar (c : Char) : Bool :=
  isDig c || isLowerAZ c || ('A' ≤ c ∧ c ≤ 'Z') || c = '_'

/-- ASCII letter test (`[A-Z]` with `re.IGNORECASE`). -/
def isAsciiLetter (c : Char) : Bool := isLowerAZ c || ('A' ≤ c ∧ c ≤ 'Z')

/-- Accumulator worker for `tokensBy` (`cur` holds the current run reversed). -/
def tokensByAux (keep : Char → Bool) : Str → Str → List Str
  | cur, [] => if cur = [] then [] else [cur.reverse]
  | cur, c :: rest =>
    if keep c then tokensByAux keep (c :: cur) rest
    else if cur = [] then tokensByAux keep [] rest
    else cur.reverse :: tokensByAux keep [] rest

/-- Split a string into the maximal runs of characters satisfying `keep`,
dropping the separators: the model of `re.findall(r"[class]+", s)` and of
`re.split(r"[^class]+", s)` once empty pieces are filtered out. -/
def tokensBy (keep : Char → Bool) (s : Str) : List Str := tokensByAux keep [] s

/-- Exact product of two rationals, written with `Rat.divInt` so that it
computes (core `Rat.mul` is irreducible). -/
def qmul (a b : Rat) : Rat := Rat.divInt (a.num * b.num) ((a.den : Int) * (b.den : Int))

/-- Exact sum of two rationals, written with `Rat.divInt` so that it computes. -/
def qadd (a b : Rat) : Rat :=
  Rat.divInt (a.num * (b.den : Int) + b.num * (a.den : Int)) ((a.den : Int) * (b.den : Int))

/-- Exact negation of a rational, written with `Rat.divInt` so that it
computes. -/
def qneg (a : Rat) : Rat := Rat.divInt (-a.num) (a.den : Int)

-- ---------------------------------------------------------------------------
-- Basic lemmas about the string primitives
-- ---------------------------------------------------------------------------

theorem toNat_ofNat_valid (n : Nat) (h : n < 55296) : (Char.ofNat n).toNat = n := by
  unfold Char.ofNat
  rw [dif_pos (Or.inl h)]
  rfl

theorem char_eq_of_toNat_eq {c d : Char} (h : c.toNat = d.toNat) : c = d :=
  Char.ext (UInt32.toNat.inj h)

theorem toNat_pyLowerChar (c : Char) : (pyLowerChar c).toNat = pyLowerNat c.toNat := by
  unfold pyLowerChar pyLowerNat
  split_ifs with h1 h2 <;> first
    | (apply toNat_ofNat_valid; omega)
    | rfl

theorem pyLowerNat_idem (n : Nat) : pyLowerNat (pyLowerNat n) = pyLowerNat n := by
  unfold pyLowerNat
  split_ifs <;> omega

theorem pyLowerChar_idem (c : Char) : pyLowerChar (pyLowerChar c) = pyLowerChar c := by
  apply char_eq_of_toNat_eq
  rw [toNat_pyLowerChar, toNat_pyLowerChar, pyLowerNat_idem]

theorem pyLowerNat_ne_195 (n : Nat) : pyLowerNat n ≠ 195 := by
  unfold pyLowerNat
  split_ifs <;> omega

theorem pyLowerChar_ne_c3 (c : Char) : pyLowerChar c ≠ 'Ã' := by
  intro h
  have := congrArg Char.toNat h
  rw [toNat_pyLowerChar] at this
  exact pyLowerNat_ne_195 _ (by simpa using this)

theorem pyLowerNat_eq_fffd (n : Nat) (h : pyLowerNat n = 65533) : n = 65533 := by
  unfold pyLowerNat at h
  split_ifs at h <;> omega

theorem mem_pyReplaceF {c : Char} {pat rep : Str} :
    ∀ {f : Nat} {s : Str}, c ∈ pyReplaceF pat rep f s → c ∈ s ∨ c ∈ rep := by
  intro f
  induction f with
  | zero => intro s h; exact Or.inl h
  | succ f ih =>
    intro s h
    match s with
    | [] => simp [pyReplaceF] at h
    | a :: rest =>
      rw [pyReplaceF] at h
      split at h
      · rcases List.mem_append.mp h with h' | h'
        · exact Or.inr h'
        · rcases ih h' with h'' | h''
          · exact Or.inl (List.mem_of_mem_drop h'')
          · exact Or.inr h''
      · rcases h with _ | h'
        · exact Or.inl (List.mem_cons_self _ _)
        · rcases ih (by assumption) with h'' | h''
          · exact Or.inl (List.mem_cons_of_mem _ h'')
          · exact Or.inr h''

theorem mem_pyReplace {c : Char} {pat rep s : Str} (h : c ∈ pyReplace pat rep s) :
    c ∈ s ∨ c ∈ rep :=
  mem_pyReplaceF h

theorem pyReplaceF_of_hasSub_false {pat rep : Str} :
    ∀ (f : Nat) (s : Str), hasSub pat s = false → pyReplaceF pat rep f s = s := by
  intro f
  induction f with
  | zero => intro s _; rfl
  | succ f ih =>
    intro s h
    match s with
    | [] => rfl
    | a :: rest =>
      rw [hasSub, Bool.or_eq_false_iff] at h
      rw [pyReplaceF, if_neg (by simp [h.1]), ih rest h.2]

theorem pyReplace_of_hasSub_false {pat rep s : Str} (h : hasSub pat s = false) :
    pyReplace pat rep s = s :=
  pyReplaceF_of_hasSub_false _ _ h

theorem hasSub_false_of_not_mem {pat s : Str} {c : Char} (hc : c ∈ pat) (hs : c ∉ s) :
    hasSub pat s = false := by
  induction s with
  | nil =>
    cases pat with
    | nil => simp at hc
    | cons a l => simp [hasSub]
  | cons a rest ih =>
    rw [hasSub, Bool.or_eq_false_iff]
    constructor
    · by_contra h
      rw [Bool.not_eq_false] at h
      have hmem : c ∈ a :: rest :=
        (List.isPrefixOf_iff_prefix.mp h).sublist.subset hc
      exact hs hmem
    · exact ih fun hm => hs (List.mem_cons_of_mem _ hm)

theorem pyReplaceF_single_eq_filter (a : Char) :
    ∀ (f : Nat) (s : Str), s.length ≤ f → pyReplaceF [a] [] f s = s.filter (· ≠ a) := by
  intro f
  induction f with
  | zero =>
    intro s hs
    have : s = [] := List.length_eq_zero.mp (Nat.le_zero.mp hs)
    subst this; rfl
  | succ f ih =>
    intro s hs
    match s with
    | [] => rfl
    | c :: rest =>
      simp only [List.length_cons] at hs
      by_cases hca : c = a
      · rw [pyReplaceF, if_pos (by simp [List.isPrefixOf, hca])]
        have hd : List.drop (List.length [a]) (c :: rest) = rest := by simp
        rw [List.nil_append, hd, ih rest (by omega)]
        simp [List.filter_cons, hca]
      · have hne : ¬([a] ≠ [] ∧ List.isPrefixOf [a] (c :: rest) = true) := by
          intro hcon
          have h2 := hcon.2
          simp [List.isPrefixOf] at h2
          exact hca h2.symm
        rw [pyReplaceF, if_neg hne, ih rest (by omega)]
        simp only [List.filter_cons]
        rw [if_pos (by simp [hca])]

theorem pyReplace_single_eq_filter (a : Char) (s : Str) :
    pyReplace [a] [] s = s.filter (· ≠ a) :=
  pyReplaceF_single_eq_filter a s.length s (le_refl _)

theorem not_mem_pyReplaceF_single {a : Char} {rep : Str} (hrep : a ∉ rep) :
    ∀ (f : Nat) (s : Str), s.length ≤ f → a ∉ pyReplaceF [a] rep f s := by
  intro f
  induction f with
  | zero =>
    intro s hs
    have : s = [] := List.length_eq_zero.mp (Nat.le_zero.mp hs)
    subst this; simp [pyReplaceF]
  | succ f ih =>
    intro s hs
    match s with
    | [] => simp [pyReplaceF]
    | c :: rest =>
      simp only [List.length_cons] at hs
      by_cases hca : c = a
      · rw [pyReplaceF, if_pos (by simp [List.isPrefixOf, hca])]
        intro hmem
        rcases List.mem_append.mp hmem with h' | h'
        · exact hrep h'
        · have hd : List.drop (List.length [a]) (c :: rest) = rest := by simp
          rw [hd] at h'
          exact ih rest (by omega) h'
      · have hne : ¬([a] ≠ [] ∧ List.isPrefixOf [a] (c :: rest) = true) := by
          intro hcon
          have h2 := hcon.2
          simp [List.isPrefixOf] at h2
          exact hca h2.symm
        rw [pyReplaceF, if_neg hne]
        intro hmem
        rcases hmem with _ | h'
        · exact hca rfl
        · exact ih rest (by omega) (by assumption)

theorem not_mem_pyReplace_single {a : Char} {rep s : Str} (hrep : a ∉ rep) :
    a ∉ pyReplace [a] rep s :=
  not_mem_pyReplaceF_single hrep s.length s (le_refl _)

theorem mem_pyStrip {c : Char} {s : Str} (h : c ∈ pyStrip s) : c ∈ s := by
  unfold pyStrip at h
  have h1 := List.mem_reverse.mp h
  have h2 := List.dropWhile_sublist (l := (s.dropWhile isPySpace).reverse) isPySpace
  have h3 := h2.subset h1
  have h4 := List.mem_reverse.mp h3
  exact (List.dropWhile_sublist (l := s) isPySpace).subset h4

-- ---------------------------------------------------------------------------
-- lookup.py: text/address normalizers
-- ---------------------------------------------------------------------------

/-- Model of `lookup._fix_mojibake`: undo common UTF-8-as-Latin-1/CP1252
corruption.  The two-character patterns are written with the exact code
points of the Python literals. -/
def _fix_mojibake (s : Str) : Str :=
  let s := pyReplace ['Ã', 'ß'] (str "ss") s
  let s := pyReplace ['Ã', 'Ÿ'] (str "ss") s
  let s := pyReplace ['Ã', '¼'] (str "ue") s
  let s := pyReplace ['Ã', '¤'] (str "ae") s
  let s := pyReplace ['Ã', '¶'] (str "oe") s
  let s := pyReplace ['Ã', '„'] (str "ae") s
  let s := pyReplace ['Ã', '–'] (str "oe") s
  let s := pyReplace ['Ã', 'œ'] (str "ue") s
  if hasSub ['�'] s then pyReplace ['�'] (str "ss") s else s

/-- Model of `lookup._normalize_address_token`: lowercase, umlauts to ASCII
digraphs, street-word variants collapsed to `str`, spaces/hyphens/slashes
removed. -/
def _normalize_address_token (s : Str) : Str :=
  let s := _fix_mojibake s
  let s := pyLower s
  let s := pyReplace (str "ä") (str "ae") s
  let s := pyReplace (str "ö") (str "oe") s
  let s := pyReplace (str "ü") (str "ue") s
  let s := pyReplace (str "ß") (str "ss") s
  let s := pyReplace (str "straße") (str "str") s
  let s := pyReplace (str "strasse") (str "str") s
  let s := pyReplace (str "strase") (str "str") s
  let s := pyReplace (str "strabe") (str "str") s
  let s := pyReplace (str "str.") (str "str") s
  let s := pyReplace (str " ") [] s
  let s := pyReplace (str "-") [] s
  pyReplace (str "/") [] s

/-- Model of one match of `re.sub(r"\s*\(\s*(\d+)\s*\)\s*", r" \1 ", s)`
anchored at the head of `s`: return the digit group and the remainder
after the (greedy) match, or `none`. -/
def matchParenDigits (s : Str) : Option (Str × Str) :=
  match s.dropWhile isPySpace with
  | '(' :: s2 =>
    if ((s2.dropWhile isPySpace).takeWhile isDig) = [] then none
    else
      match (((s2.dropWhile isPySpace).dropWhile isDig).dropWhile isPySpace) with
      | ')' :: s6 =>
        some ((s2.dropWhile isPySpace).takeWhile isDig, s6.dropWhile isPySpace)
      | _ => none
  | _ => none

theorem length_dropWhile_le (p : Char → Bool) (l : Str) :
    (l.dropWhile p).length ≤ l.length :=
  (List.dropWhile_sublist p).length_le

/-- Adequacy of the fuel used by `parenSub`: a successful match strictly
consumes input. -/
theorem matchParenDigits_length_lt {s ds r : Str}
    (h : matchParenDigits s = some (ds, r)) : r.length < s.length := by
  have hd : (s.dropWhile isPySpace).length ≤ s.length := length_dropWhile_le _ _
  unfold matchParenDigits at h
  split at h
  case h_2 => exact absurd h (by simp)
  case h_1 s2 heq1 =>
    split at h
    · exact absurd h (by simp)
    · split at h
      case h_2 => exact absurd h (by simp)
      case h_1 s6 heq2 =>
        have hr : r = s6.dropWhile isPySpace := by
          simp only [Option.some.injEq, Prod.mk.injEq] at h
          exact h.2.symm
        have h1 : r.length ≤ s6.length := by
          rw [hr]; exact length_dropWhile_le _ _
        have h2 : (List.dropWhile isPySpace
            (List.dropWhile isDig (List.dropWhile isPySpace s2))).length = s6.length + 1 := by
          rw [heq2]; simp
        have h3 : (List.dropWhile isPySpace
            (List.dropWhile isDig (List.dropWhile isPySpace s2))).length ≤ s2.length :=
          le_trans (length_dropWhile_le _ _)
            (le_trans (length_dropWhile_le _ _) (length_dropWhile_le _ _))
        have h4 : (s.dropWhile isPySpace).length = s2.length + 1 := by
          rw [heq1]; simp
        omega

/-- Fuel-indexed worker for `parenSub`. -/
def parenSubF : Nat → Str → Str
  | 0, s => s
  | _+1, [] => []
  | f+1, c :: rest =>
    match matchParenDigits (c :: rest) with
    | some (ds, r) => ' ' :: (ds ++ ' ' :: parenSubF f r)
    | none => c :: parenSubF f rest

/-- Full model of `re.sub(r"\s*\(\s*(\d+)\s*\)\s*", r" \1 ", s)` (used by
`_normalize_city`): leftmost-first replacement by a space, the digits, a
space. -/
def parenSub (s : Str) : Str := parenSubF s.length s

/-- Model of `lookup._normalize_city`: lowercase/trim, umlauts to digraphs,
drop " am " and slashes, unwrap parenthesised district digits, then remove
spaces and hyphens. -/
def _normalize_city (s : Str) : Str :=
  let s := _fix_mojibake s
  let s := pyStrip (pyLower s)
  let s := pyReplace (str "ä") (str "ae") s
  let s := pyReplace (str "ö") (str "oe") s
  let s := pyReplace (str "ü") (str "ue") s
  let s := pyReplace (str "ß") (str "ss") s
  let s := pyReplace (str " am ") (str " ") s
  let s := pyReplace (str "/") (str " ") s
  let s := parenSub s
  let s := pyReplace (str " ") [] s
  pyReplace (str "-") [] s

/-- Stopwords dropped by `_city_tokens`. -/
def _CITY_STOPWORDS : List Str :=
  [str "neu", str "am", str "bei", str "der", str "die", str "das"]

/-- Model of `re.sub(r"^\(|\)$", "", p)`: drop one leading `(` and one
trailing `)`. -/
def stripParens (p : Str) : Str :=
  let p1 := match p with
    | '(' :: r => r
    | other => other
  match p1.reverse with
  | ')' :: r => r.reverse
  | _ => p1

/-- Model of `lookup._city_tokens`: significant city tokens (length at least
2, stopwords dropped); the Python `set` is modelled as a deduplicated list. -/
def _city_tokens (s : Str) : List Str :=
  if pyStrip s = [] then []
  else
    let t := _fix_mojibake s
    let t := pyStrip (pyLower t)
    let t := pyReplace (str "ä") (str "ae") t
    let t := pyReplace (str "ö") (str "oe") t
    let t := pyReplace (str "ü") (str "ue") t
    let t := pyReplace (str "ß") (str "ss") t
    let parts := tokensBy (fun c => !(isPySpace c || c = '/' || c = ',')) t
    (parts.filterMap (fun p =>
      let q := pyStrip (stripParens p)
      if q ≠ [] ∧ q.length ≥ 2 ∧ q ∉ _CITY_STOPWORDS then some q else none)).dedup

/-- Test that the next character (if any) is not a regex word character:
the model of a `\b` boundary on the right. -/
def boundaryOk : Str → Bool
  | [] => true
  | c :: _ => !isWordChar c

/-- Model of `re.search(r"[A-Z]+-\s*(\d{4,5})\b", s, re.IGNORECASE)` anchored
at the head of `s`: letters, a hyphen, optional whitespace, then a 4- or
5-digit group ending at a word boundary. -/
def countryPlzAt : Str → Option Str
  | [] => none
  | c :: rest =>
    if isAsciiLetter c then
      match rest.dropWhile isAsciiLetter with
      | '-' :: r2 =>
        let r3 := r2.dropWhile isPySpace
        let ds := r3.takeWhile isDig
        if (ds.length = 4 ∨ ds.length = 5) ∧ boundaryOk (r3.dropWhile isDig) then
          some ds
        else none
      | _ => none
    else none

/-- Leftmost match of the country-code postal pattern anywhere in the string
(the model of the un-anchored `re.search`). -/
def findCountryPlz : Str → Option Str
  | [] => none
  | c :: rest =>
    match countryPlzAt (c :: rest) with
    | some ds => some ds
    | none => findCountryPlz rest

/-- Fuel-indexed worker for the model of `re.findall(r"\b(\d{4,5})\b", s)`:
all maximal digit runs of length 4 or 5 delimited by word boundaries, in
order.  `prevWord` says whether the character before the current position is
a word character. -/
def standalonePlzsF : Nat → Bool → Str → List Str
  | 0, _, _ => []
  | _+1, _, [] => []
  | f+1, prevWord, c :: rest =>
    if !prevWord && isDig c then
      let ds := c :: rest.takeWhile isDig
      let after := rest.dropWhile isDig
      if (ds.length = 4 ∨ ds.length = 5) && boundaryOk after then
        ds :: standalonePlzsF f true after
      else standalonePlzsF f true after
    else standalonePlzsF f (isWordChar c) rest

/-- Model of `re.findall(r"\b(\d{4,5})\b", s)` (fuel = length suffices since
at least one character is consumed per step). -/
def standalonePlzs (s : Str) : List Str := standalonePlzsF s.length false s

/-- Python `max(all_matches, key=lambda x: (len(x) == 5, len(x)))` on a list
of 4- and 5-digit strings: the first 5-digit match, else the first match. -/
def pickPlz (ms : List Str) : Option Str :=
  match ms.find? (fun d => d.length = 5) with
  | some d => some d
  | none => ms.head?

/-- Shared model of the postal-code extraction used (with identical inline
logic) by `find_customer_by_address`, `_extract_plz_from_address` and
`find_iln_by_address`: prefer the country-code pattern, then the best
standalone 4-5 digit run. -/
def extractPlz (address_str : Str) : Option Str :=
  match findCountryPlz address_str with
  | some p => some p
  | none => pickPlz (standalonePlzs address_str)

/-- Model of `lookup._plz_digits_only`: digits-only part of a postal code. -/
def _plz_digits_only (plz_val : Str) : Str :=
  if plz_val = [] then []
  else
    let s := pyReplace (str ".0") [] (pyStrip plz_val)
    match findCountryPlz s with
    | some m => m
    | none =>
      let d := s.filter isDig
      if d = [] then s else d

/-- Model of `lookup._city_matches`: token-based city match. -/
def _city_matches (ort_db_val : Str) (addr : Str) : Bool :=
  let tokens := _city_tokens ort_db_val
  if tokens = [] ∨ ort_db_val.length < 3 then false
  else if tokens.all (fun t => hasSub t addr) then true
  else
    let ort_norm := _normalize_city ort_db_val
    if ort_norm ≠ [] ∧ hasSub ort_norm addr then true
    else if hasSub (str "wien") ort_norm then
      let district := (ort_norm.dropWhile (fun c => !isDig c)).takeWhile isDig
      if district ≠ [] then hasSub (str "wien") addr && hasSub district addr
      else false
    else false

/-- Model of `lookup._normalize_loose_alnum`: lowercase, umlauts to digraphs,
then the space-joined `[a-z0-9]+` runs. -/
def _normalize_loose_alnum (t : Str) : Str :=
  let t := pyLower (_fix_mojibake t)
  let t := pyReplace (str "ä") (str "ae") t
  let t := pyReplace (str "ö") (str "oe") t
  let t := pyReplace (str "ü") (str "ue") t
  let t := pyReplace (str "ß") (str "ss") t
  List.intercalate (str " ") (tokensBy (fun c => isLowerAZ c || isDig c) t)

/-- Try to match `\d{1,4}[a-z]?\b` at the head of `s` (whose head is a digit),
taking `k` digits greedily and backtracking; returns the matched token and
the remainder. -/
def tryHouseK : Nat → Str → Option (Str × Str)
  | 0, _ => none
  | (k+1), s =>
    let ds := s.take (k+1)
    let rest := s.drop (k+1)
    match rest with
    | [] => some (ds, [])
    | a :: r2 =>
      if isLowerAZ a then
        if boundaryOk r2 then some (ds ++ [a], r2) else tryHouseK k s
      else
        if boundaryOk rest then some (ds, rest) else tryHouseK k s

/-- Adequacy of the fuel used by `houseScanF`: a successful house-number
match strictly consumes input. -/
theorem tryHouseK_length_lt {n : Nat} {s tok r : Str} (hs : s ≠ [])
    (h : tryHouseK n s = some (tok, r)) : r.length < s.length := by
  induction n with
  | zero => exact absurd h (by simp [tryHouseK])
  | succ k ih =>
    rw [tryHouseK] at h
    have hlen : 1 ≤ s.length := by
      cases s with
      | nil => exact absurd rfl hs
      | cons a l => simp
    split at h
    · simp only [Option.some.injEq, Prod.mk.injEq] at h
      rw [← h.2]
      simpa using hlen
    · rename_i a r2 heq
      have hr2 : r2.length + 1 = (s.drop (k+1)).length := by rw [heq]; simp
      have hdrop : (s.drop (k+1)).length = s.length - (k+1) := by simp
      split at h
      · split at h
        · simp only [Option.some.injEq, Prod.mk.injEq] at h
          rw [← h.2]
          omega
        · exact ih h
      · split at h
        · simp only [Option.some.injEq, Prod.mk.injEq] at h
          rw [← h.2, ← hr2]
          omega
        · exact ih h

/-- Fuel-indexed scanner for `re.findall(r"\b\d{1,4}[a-z]?\b", s)`: at each
position whose left neighbour is not a word character, try the house-number
pattern. -/
def houseScanF : Nat → Bool → Str → List Str
  | 0, _, _ => []
  | _+1, _, [] => []
  | f+1, prevWord, c :: rest =>
    if !prevWord && isDig c then
      match tryHouseK (min (((c :: rest).takeWhile isDig).length) 4) (c :: rest) with
      | some (tok, r) => tok :: houseScanF f true r
      | none => houseScanF f (isWordChar c) rest
    else houseScanF f (isWordChar c) rest

/-- Scanner for `re.findall(r"\b\d{1,4}[a-z]?\b", s)`. -/
def houseScan (s : Str) : List Str := houseScanF s.length false s

/-- Model of `lookup._extract_house_number_tokens`: the set (deduplicated
list) of 1-4 digit tokens with an optional single trailing letter. -/
def _extract_house_number_tokens (t : Str) : List Str :=
  let t := pyLower (_fix_mojibake t)
  let t := pyReplace (str "ä") (str "ae") t
  let t := pyReplace (str "ö") (str "oe") t
  let t := pyReplace (str "ü") (str "ue") t
  let t := pyReplace (str "ß") (str "ss") t
  (houseScan t).dedup

/-- Stopword list of `lookup._street_tokens`. -/
def _STREET_STOP : List Str :=
  [str "blvd", str "str", str "strasse", str "street", str "ul", str "ulitsa", str "evropa"]

/-- Model of `lookup._street_tokens`: `[a-z0-9]+` runs of length at least 3
that are not street stopwords (kept in order, duplicates kept). -/
def _street_tokens (t : Str) : List Str :=
  let t := pyLower (_fix_mojibake t)
  let t := pyReplace (str "ä") (str "ae") t
  let t := pyReplace (str "ö") (str "oe") t
  let t := pyReplace (str "ü") (str "ue") t
  let t := pyReplace (str "ß") (str "ss") t
  (tokensBy (fun c => isLowerAZ c || isDig c) t).filter
    (fun tok => tok.length ≥ 3 && tok ∉ _STREET_STOP)

/-- Best pairwise similarity of `rt` against the input tokens, mirroring the
Python loop in `_token_coverage_score` (`break` with `best = 1.0` on exact
equality, otherwise running maximum of the oracle similarity `ratio`, the
model of `difflib.SequenceMatcher(None, rt, it).ratio()`). -/
def bestSimAux (ratio : Str → Str → Rat) (rt : Str) (best : Rat) : List Str → Rat
  | [] => best
  | it :: rest =>
    if rt = it then 1
    else
      let sim := ratio rt it
      bestSimAux ratio rt (if best < sim then sim else best) rest

/-- Model of `lookup._token_coverage_score` (the `SequenceMatcher` similarity
is the oracle `ratio`; Python's float `0.84` threshold and the float division
are modelled exactly over the rationals). -/
def _token_coverage_score (ratio : Str → Str → Rat)
    (row_tokens input_tokens : List Str) : Rat :=
  if row_tokens = [] ∨ input_tokens = [] then 0
  else
    let matched := (row_tokens.filter
      (fun rt => Rat.divInt 21 25 ≤ bestSimAux ratio rt 0 input_tokens)).length
    Rat.divInt matched row_tokens.length

/-- Model of `lookup._clean_kdnr` (and of the identical nested helper
`_clean_num` in `find_customer_by_address` / `find_kundennummer_by_iln`):
drop `.0`, trim, strip leading zeros with fallback. -/
def _clean_kdnr (v : Str) : Str := lstripZeroOr (pyStrip (pyReplace (str ".0") [] v))

/-- Decimal value of a digit string (Python `int` on a digits-only string). -/
def natOfDigits (ds : Str) : Nat := ds.foldl (fun acc c => acc * 10 + (c.toNat - 48)) 0

/-- Model of `lookup._kdnr_sort_value`: numeric sort key of a customer
number, `10 ** 9` when no digits remain. -/
def _kdnr_sort_value (v : Str) : Nat :=
  let digits := (_clean_kdnr v).filter isDig
  if digits = [] then 10 ^ 9 else natOfDigits digits

-- ---------------------------------------------------------------------------
-- lookup.py: data model and customer/address matcher
-- ---------------------------------------------------------------------------

/-- One row of the Primex customer registry, holding the `str()` view of each
pandas cell.  `Verband` carries the `pd.to_numeric(..., errors="coerce")`
view used by `_filter_by_verband`: `none` models a non-numeric/NaN value. -/
structure Row where
  Kundennummer : Str
  Name1 : Str
  Name2 : Str
  Name3 : Str
  Strasse : Str
  Ort : Str
  Postleitzahl : Str
  Adressnummer : Str
  Tour : Str
  Verband : Option Int
deriving Repr, DecidableEq

/-- The loaded customer registry.  `hasVerbandColumn = false` models a table
without a `Verband` column, for which `_filter_by_verband` returns `None`.
(The `Kundennummer`/`Adressnummer` columns are assumed present: without them
the Python code raises or returns `None` before doing any matching.) -/
structure CustomerTable where
  rows : List Row
  hasVerbandColumn : Bool
deriving Repr, DecidableEq

/-- The result dictionary of the customer matchers. -/
structure MatchResult where
  kundennummer : Str
  adressnummer : Str
  tour : Str
deriving Repr, DecidableEq

/-- `lookup.VERBAND_FILTER`. -/
def VERBAND_FILTER : List Int := [27750, 29000, 30000]

/-- Membership of a row's `Verband` value in `VERBAND_FILTER` (non-numeric
values never qualify, matching `pd.to_numeric(...).isin`). -/
def verbandOk (r : Row) : Bool :=
  match r.Verband with
  | some v => VERBAND_FILTER.contains v
  | none => false

/-- Model of `lookup._filter_by_verband`: `none` when the `Verband` column is
missing, else the rows whose numeric `Verband` is in the allow-set. -/
def _filter_by_verband (hasVerbandColumn : Bool) (rows : List Row) : Option (List Row) :=
  if hasVerbandColumn then some (rows.filter verbandOk) else none

/-- The pervasive pandas cell cleaning `.astype(str).str.replace(".0",
"").str.strip()`. -/
def cleanCell (s : Str) : Str := pyStrip (pyReplace (str ".0") [] s)

/-- Model of the nested `_match_by_kundennummer_fallback` of
`find_customer_by_address`: resolve by cleaned customer-number equality,
preferring the `Adressnummer == "0"` row but falling back to any row. -/
def _match_by_kundennummer_fallback (tbl : CustomerTable) (kdnr : Str) : Option MatchResult :=
  if kdnr = [] then none
  else
    let kdnr_clean := _clean_kdnr kdnr
    let kdn_subset := tbl.rows.filter (fun r => _clean_kdnr (cleanCell r.Kundennummer) = kdnr_clean)
    match _filter_by_verband tbl.hasVerbandColumn kdn_subset with
    | none => none
    | some kdn2 =>
      if kdn2 = [] then none
      else
        let adr_zero := kdn2.filter (fun r => cleanCell r.Adressnummer = str "0")
        let pick := if adr_zero ≠ [] then adr_zero else kdn2
        match pick.head? with
        | none => none
        | some best => some {
            kundennummer := pyReplace (str ".0") [] best.Kundennummer,
            adressnummer := pyReplace (str ".0") [] best.Adressnummer,
            tour := best.Tour }

/-- Strict street+city containment acceptance of one row (the step-1 loop of
`find_customer_by_address`). -/
def strictRowOk (addr_clean : Str) (r : Row) : Bool :=
  if r.Strasse.length < 3 || r.Ort.length < 3 then false
  else
    let strasse_clean := _normalize_address_token r.Strasse
    let ort_clean := _normalize_city r.Ort
    let street_matches :=
      hasSub strasse_clean addr_clean ||
      (pyStarts (str "am") strasse_clean && decide (strasse_clean.length > 2) &&
        hasSub (strasse_clean.drop 2) addr_clean)
    if !street_matches then false
    else hasSub ort_clean addr_clean || _city_matches r.Ort addr_clean

/-- The strict-pass candidate list (rows in table order). -/
def strictCandidates (addr_clean : Str) (subset : List Row) : List Row :=
  subset.filter (strictRowOk addr_clean)

/-- Acceptance test of the fuzzy fallback pass for one row: token-set score
(oracle `tsr`) with a `+20` bonus on exact postal match, against threshold
70 (postal code present) or 85 (absent). -/
def fuzzyRowOk (tsr : Str → Str → Rat) (plz : Option Str) (input_str : Str) (r : Row) : Bool :=
  if r.Strasse.length < 3 || r.Ort.length < 3 then false
  else
    let plz_db := _plz_digits_only (cleanCell r.Postleitzahl)
    let row_str := _normalize_address_token r.Strasse ++ str " " ++ _normalize_city r.Ort ++
      (if plz_db ≠ [] then str " " ++ plz_db else [])
    let score := tsr input_str row_str
    let score := match plz with
      | some p => if plz_db = p then qadd score 20 else score
      | none => score
    decide ((if plz.isSome then (70 : Rat) else 85) ≤ score)

/-- The fuzzy-pass candidate list (only consulted when the strict pass is
empty and `rapidfuzz` is available). -/
def fuzzyCandidates (tsr : Str → Str → Rat) (plz : Option Str) (addr_clean : Str)
    (subset : List Row) : List Row :=
  let input_str := addr_clean ++ (match plz with | some p => str " " ++ p | none => [])
  subset.filter (fuzzyRowOk tsr plz input_str)

/-- Model of the nested `_company_tokens`: `[a-z0-9]+` runs of the normalized
company string minus legal-form stopwords (a Python `set`, modelled as a
deduplicated list). -/
def _company_tokens (t : Str) : List Str :=
  ((tokensBy (fun c => isLowerAZ c || isDig c) (_normalize_address_token t)).filter
    (fun tok => tok ∉ [str "gmbh", str "co", str "kg", str "und"])).dedup

/-- Model of the nested `score_company` of step 2a. -/
def score_company (iln_tokens : List Str) (r : Row) : Nat :=
  let cand_tokens := (_company_tokens r.Name1 ++ _company_tokens r.Name2).dedup
  let overlap := (iln_tokens.filter (fun t => t ∈ cand_tokens)).length
  if overlap > 0 then
    overlap * 10 + (iln_tokens.filter (fun t => cand_tokens.any (fun c => hasSub t c))).length
  else 0

/-- Narrow a candidate list to the rows attaining the maximal score, but only
when that maximum is strictly positive (the shared shape of steps 2a, 2a-bis
and 2b). -/
def narrowByScore (score : Row → Nat) (cands : List Row) : List Row :=
  let best := (cands.map score).foldl max 0
  if best > 0 then cands.filter (fun r => score r = best) else cands

/-- Step 2a: ILN company / Gesellschaft narrowing. -/
def companyStage (iln_company : Str) (cands : List Row) : List Row :=
  if iln_company ≠ [] ∧ cands.length > 1 then
    let iln_tokens := _company_tokens iln_company
    if iln_tokens ≠ [] then narrowByScore (score_company iln_tokens) cands
    else cands
  else cands

/-- Model of the (twice-defined, identical) nested `_get_tokens`/`get_tokens`:
runs of `[a-z0-9äöüß]` in the lowercased text, length at least 3, minus
stopwords; an ordered list with duplicates kept. -/
def _get_tokens (t : Str) : List Str :=
  (tokensBy (fun c => isLowerAZ c || isDig c || c = 'ä' || c = 'ö' || c = 'ü' || c = 'ß')
      (pyLower t)).filter
    (fun p => decide (p.length ≥ 3) &&
      p ∉ [str "gmbh", str "co", str "kg", str "und", str "der", str "die", str "das"])

/-- Model of the nested `score_filiale` of step 2a-bis: summed lengths of the
distinct candidate name tokens matched by the branch hint (exactly, or as a
suffix of a hint token when at least 4 characters long). -/
def score_filiale (filiale_tokens : List Str) (r : Row) : Nat :=
  let cand_tokens := _get_tokens r.Name1 ++ _get_tokens r.Name2
  let matched := (cand_tokens.filter (fun t =>
    t ∈ filiale_tokens || (decide (t.length ≥ 4) && filiale_tokens.any (fun ft => pyEnds t ft)))).dedup
  (matched.map List.length).sum

/-- Step 2a-bis: ILN branch (Filiale) hint narrowing. -/
def filialeStage (iln_filiale_hint : Str) (cands : List Row) : List Row :=
  if pyStrip iln_filiale_hint ≠ [] ∧ cands.length > 1 then
    let filiale_tokens := (_get_tokens (pyStrip iln_filiale_hint)).dedup
    if filiale_tokens ≠ [] then narrowByScore (score_filiale filiale_tokens) cands
    else cands
  else cands

/-- Model of the nested `score_hint` of step 2b (same matching shape as
`score_filiale`). -/
def score_hint (hint_tokens : List Str) (r : Row) : Nat :=
  let tokens := _get_tokens r.Name1 ++ _get_tokens r.Name2
  let matched := (tokens.filter (fun t =>
    t ∈ hint_tokens || (decide (t.length ≥ 4) && hint_tokens.any (fun ht => pyEnds t ht)))).dedup
  (matched.map List.length).sum

/-- Step 2b: client-hint narrowing (hint text is the joined client hint and
commission name). -/
def hintStage (client_hint kom_name : Str) (cands : List Row) : List Row :=
  let hint_text := pyStrip (client_hint ++ str " " ++ kom_name)
  if hint_text ≠ [] then
    let hint_tokens := (_get_tokens (pyLower hint_text)).dedup
    narrowByScore (score_hint hint_tokens) cands
  else cands

/-- Model of the nested `has_joop`. -/
def has_joop (r : Row) : Bool :=
  let n1 := pyLower r.Name1
  let n2 := pyLower r.Name2
  hasSub (str "-jo-") n1 || hasSub (str "-jo-") n2 ||
    pyEnds (str "-jo") n1 || pyEnds (str "-jo") n2

/-- Step 3: JOOP naming-variant preference. -/
def joopStage (is_joop : Bool) (cands : List Row) : List Row :=
  let joop_matches := cands.filter has_joop
  let non_joop_matches := cands.filter (fun r => !has_joop r)
  if is_joop then
    if joop_matches ≠ [] then joop_matches else cands
  else
    if non_joop_matches ≠ [] then non_joop_matches else cands

/-- Step 3.5: prefer `Einrichtungshaus` in `Name2` when several remain. -/
def einrichtungshausStage (cands : List Row) : List Row :=
  if cands.length > 1 then
    let einr := cands.filter (fun r => hasSub (str "einrichtungshaus") (pyLower r.Name2))
    if einr ≠ [] then einr else cands
  else cands

/-- Step right after candidate generation: prefer postal-code-equal rows but
keep all when none match. -/
def plzPreferStage (plz : Option Str) (cands : List Row) : List Row :=
  match plz with
  | some p =>
    if cands ≠ [] then
      let plz_matched := cands.filter (fun r => _plz_digits_only (cleanCell r.Postleitzahl) = p)
      if plz_matched ≠ [] then plz_matched else cands
    else cands
  | none => cands

/-- Steps 2-4 of `find_customer_by_address`: the tie-break cascade over an
already-generated candidate list, ending with the first remaining row and
the hard `Adressnummer == "0"` rejection.  (The data-quality warning on a
postal mismatch is omitted: it never affects the returned value.) -/
def selectFromCandidates (plz : Option Str)
    (iln_company iln_filiale_hint client_hint kom_name : Str) (is_joop : Bool)
    (candidates : List Row) : Option MatchResult :=
  let cand1 := plzPreferStage plz candidates
  let cand2 := companyStage iln_company cand1
  let cand3 := filialeStage iln_filiale_hint cand2
  let cand4 := hintStage client_hint kom_name cand3
  let cand5 := joopStage is_joop cand4
  let final_candidates := einrichtungshausStage cand5
  match final_candidates.head? with
  | none => none
  | some best =>
    if cleanCell best.Adressnummer ≠ str "0" then none
    else some {
      kundennummer := pyReplace (str ".0") [] best.Kundennummer,
      adressnummer := pyReplace (str ".0") [] best.Adressnummer,
      tour := best.Tour }

/-- The cleaned input address of `find_customer_by_address` (stripped,
normalized, with the normalized ILN company appended when given). -/
def fcbaAddrClean (address_str iln_company : Str) : Str :=
  let addr_clean0 := _normalize_address_token (pyStrip address_str)
  if iln_company ≠ [] then addr_clean0 ++ _normalize_address_token iln_company
  else addr_clean0

/-- The candidate-generation row subset of `find_customer_by_address`:
`Adressnummer == "0"` rows, Verband-filtered (`none` when the column is
missing), optionally narrowed by postal-code equality (kept wide when the
narrowing would empty it). -/
def fcbaSubset (t : CustomerTable) (plz : Option Str) : Option (List Row) :=
  match _filter_by_verband t.hasVerbandColumn
      (t.rows.filter (fun r => cleanCell r.Adressnummer = str "0")) with
  | none => none
  | some subset1 =>
    some (match plz with
      | some p =>
        let subset_plz := subset1.filter (fun r => _plz_digits_only (cleanCell r.Postleitzahl) = p)
        if subset_plz ≠ [] then subset_plz else subset1
      | none => subset1)

/-- Model of `lookup.find_customer_by_address`.  `tsr` is the
`rapidfuzz.fuzz.token_set_ratio` oracle (`none` models a failed `rapidfuzz`
import, i.e. `fuzz is None`); `tbl = none` models `load_data()` returning
`None`.  Optional string arguments use `[]` for Python `None`/`""` (their
truthiness coincides everywhere they are used). -/
def find_customer_by_address (tsr : Option (Str → Str → Rat)) (tbl : Option CustomerTable)
    (address_str : Str) (kundennummer : Str) (kom_name : Str) (is_joop : Bool)
    (client_hint : Str) (iln_company : Str) (iln_filiale_hint : Str) : Option MatchResult :=
  match tbl with
  | none => none
  | some t =>
    if address_str = [] ∨ pyStrip address_str = [] then
      if kundennummer ≠ [] then _match_by_kundennummer_fallback t kundennummer else none
    else
      let addr_clean := fcbaAddrClean address_str iln_company
      let plz := extractPlz (pyStrip address_str)
      match fcbaSubset t plz with
      | none => none
      | some subset =>
        let strict := strictCandidates addr_clean subset
        let candidates := match tsr with
          | some f => if strict = [] then fuzzyCandidates f plz addr_clean subset else strict
          | none => strict
        if candidates = [] then
          if kundennummer ≠ [] then _match_by_kundennummer_fallback t kundennummer else none
        else
          selectFromCandidates plz iln_company iln_filiale_hint client_hint kom_name is_joop
            candidates

-- ---------------------------------------------------------------------------
-- lookup.py: region-restricted (momax_bg) matcher and ILN derivation
-- ---------------------------------------------------------------------------

/-- `lookup.MOMAX_BG_ALLOWED_KUNDENNUMMERN`. -/
def MOMAX_BG_ALLOWED_KUNDENNUMMERN : List Str :=
  [str "68935", str "68936", str "68937", str "68938", str "68939", str "68941"]

/-- One entry of the `candidates` list built by
`find_momax_bg_customer_by_address` (the Python dict keys `row`, `strict`,
`plz_exact`, `house_match`, `fuzzy_score`, `kdnr_sort`). -/
structure MomaxCand where
  row : Row
  strict : Bool
  plz_exact : Bool
  house_match : Bool
  fuzzy_score : Rat
  kdnr_sort : Nat
deriving Repr, DecidableEq

/-- Street acceptance by strict containment (with the `Am `-prefix
relaxation) in the momax matcher. -/
def momaxStreetMatches (addr_clean : Str) (r : Row) : Bool :=
  let strasse_clean := _normalize_address_token r.Strasse
  hasSub strasse_clean addr_clean ||
    (pyStarts (str "am") strasse_clean && decide (strasse_clean.length > 2) &&
      hasSub (strasse_clean.drop 2) addr_clean)

/-- Mandatory city filter of the momax matcher. -/
def momaxCityMatch (addr_clean : Str) (r : Row) : Bool :=
  let ort_clean := _normalize_city r.Ort
  ort_clean ≠ [] && (hasSub ort_clean addr_clean || _city_matches r.Ort addr_clean)

/-- The `fuzzy_score` of one momax row (0 when `rapidfuzz` is unavailable or
either loose string is empty). -/
def momaxFuzzyScore (tsr : Option (Str → Str → Rat)) (input_street_loose : Str) (r : Row) : Rat :=
  let row_street_loose := _normalize_loose_alnum r.Strasse
  match tsr with
  | some f =>
    if input_street_loose ≠ [] ∧ row_street_loose ≠ [] then f input_street_loose row_street_loose
    else 0
  | none => 0

/-- House-number corroboration: both sides have house-number tokens and they
intersect. -/
def momaxHouseMatch (input_house : List Str) (r : Row) : Bool :=
  let row_house := _extract_house_number_tokens r.Strasse
  row_house ≠ [] && input_house ≠ [] && row_house.any (fun tok => tok ∈ input_house)

/-- The token-coverage score of one momax row against the input tokens. -/
def momaxTokenCoverage (ratio : Str → Str → Rat) (input_tokens : List Str) (r : Row) : Rat :=
  _token_coverage_score ratio (_street_tokens r.Strasse) input_tokens

/-- The `fuzzy_accept` condition of the momax matcher. -/
def momaxFuzzyAccept (fuzzAvailable : Bool) (street_matches house_match : Bool)
    (fuzzy_score : Rat) : Bool :=
  !street_matches && fuzzAvailable &&
    (decide ((78 : Rat) ≤ fuzzy_score) || (house_match && decide ((70 : Rat) ≤ fuzzy_score)))

/-- The `token_accept` condition of the momax matcher: token coverage at or
above `0.75` and either house-number corroboration or a registry street with
no house-number token at all. -/
def momaxTokenAccept (street_matches house_match : Bool) (token_coverage : Rat)
    (row_house : List Str) : Bool :=
  !street_matches && decide (Rat.divInt 3 4 ≤ token_coverage) && (house_match || row_house = [])

/-- The per-row body of the momax candidate loop: `none` models `continue`. -/
def momaxRowCandidate (tsr : Option (Str → Str → Rat)) (ratio : Str → Str → Rat)
    (addr_clean : Str) (input_plz : Option Str) (input_street_loose : Str)
    (input_house : List Str) (input_tokens : List Str) (r : Row) : Option MomaxCand :=
  if r.Strasse.length < 3 || r.Ort.length < 3 then none
  else if !momaxCityMatch addr_clean r then none
  else
    let street_matches := momaxStreetMatches addr_clean r
    let fuzzy_score := momaxFuzzyScore tsr input_street_loose r
    let row_house := _extract_house_number_tokens r.Strasse
    let house_match := momaxHouseMatch input_house r
    let token_coverage := momaxTokenCoverage ratio input_tokens r
    let fuzzy_accept := momaxFuzzyAccept tsr.isSome street_matches house_match fuzzy_score
    let token_accept := momaxTokenAccept street_matches house_match token_coverage row_house
    if !street_matches && !fuzzy_accept && !token_accept then none
    else
      let plz_db := _plz_digits_only (cleanCell r.Postleitzahl)
      let plz_exact := match input_plz with
        | some p => plz_db = p
        | none => false
      let rank := match tsr with
        | some _ => fuzzy_score
        | none => qmul token_coverage 100
      some { row := r, strict := street_matches, plz_exact := plz_exact,
             house_match := house_match, fuzzy_score := rank,
             kdnr_sort := _kdnr_sort_value r.Kundennummer }

/-- The Python sort key comparison of the momax candidate ranking:
`(0/1 strict, 0/1 plz, 0/1 house, -score, kdnr)` lexicographically. -/
def momaxKeyLe (a b : MomaxCand) : Bool :=
  let a1 : Nat := if a.strict then 0 else 1
  let b1 : Nat := if b.strict then 0 else 1
  let a2 : Nat := if a.plz_exact then 0 else 1
  let b2 : Nat := if b.plz_exact then 0 else 1
  let a3 : Nat := if a.house_match then 0 else 1
  let b3 : Nat := if b.house_match then 0 else 1
  let a4 := qneg a.fuzzy_score
  let b4 := qneg b.fuzzy_score
  if a1 ≠ b1 then decide (a1 < b1)
  else if a2 ≠ b2 then decide (a2 < b2)
  else if a3 ≠ b3 then decide (a3 < b3)
  else if a4 ≠ b4 then decide (a4 < b4)
  else decide (a.kdnr_sort ≤ b.kdnr_sort)

/-- Insert into a sorted list after all elements that compare `le` (keeps the
earlier element first on ties, as Python's stable sort does). -/
def insSorted {α : Type} (le : α → α → Bool) (x : α) : List α → List α
  | [] => [x]
  | y :: ys => if le x y then x :: y :: ys else y :: insSorted le x ys

/-- Stable insertion sort modelling Python's stable `list.sort(key=...)` and
`sorted(...)` (with a total-preorder comparison, a stable sort is uniquely
determined, so this agrees with Python's Timsort). -/
def insSort {α : Type} (le : α → α → Bool) : List α → List α
  | [] => []
  | x :: xs => insSorted le x (insSort le xs)

theorem mem_insSorted {α : Type} {le : α → α → Bool} {x a : α}
    {l : List α} (h : a ∈ insSorted le x l) : a = x ∨ a ∈ l := by
  induction l with
  | nil => simpa [insSorted] using h
  | cons y ys ih =>
    rw [insSorted] at h
    split at h
    · rcases h with _ | h'
      · exact Or.inl rfl
      · exact Or.inr (by assumption)
    · rcases h with _ | h'
      · exact Or.inr (List.mem_cons_self _ _)
      · rcases ih (by assumption) with h'' | h''
        · exact Or.inl h''
        · exact Or.inr (List.mem_cons_of_mem _ h'')

theorem mem_insSort {α : Type} {le : α → α → Bool} {a : α}
    {l : List α} (h : a ∈ insSort le l) : a ∈ l := by
  induction l with
  | nil => simp [insSort] at h
  | cons x xs ih =>
    rw [insSort] at h
    rcases mem_insSorted h with h' | h'
    · simp [h']
    · exact List.mem_cons_of_mem _ (ih h')

/-- The allowlist-filtered candidate subset of the momax matcher:
`Adressnummer == "0"` rows, Verband-filtered, then restricted to the cleaned
`MOMAX_BG_ALLOWED_KUNDENNUMMERN` (`none` when the Verband column is missing
or no eligible row exists at all). -/
def momaxAllowSubset (t : CustomerTable) : Option (List Row) :=
  match _filter_by_verband t.hasVerbandColumn
      (t.rows.filter (fun r => cleanCell r.Adressnummer = str "0")) with
  | none => none
  | some subset1 =>
    if subset1 = [] then none
    else
      some (subset1.filter (fun r =>
        _clean_kdnr (cleanCell r.Kundennummer) ∈ MOMAX_BG_ALLOWED_KUNDENNUMMERN.map _clean_kdnr))

/-- Model of `lookup.find_momax_bg_customer_by_address`: the region-restricted
matcher constrained to the fixed customer-number allowlist.  `tsr` and
`ratio` are the `rapidfuzz`/`SequenceMatcher` oracles.  (The source's
`_extract_plz_from_address` returns `""` for "no postal code"; the model's
`extractPlz` returns `none`, with identical truthiness at every use.) -/
def find_momax_bg_customer_by_address (tsr : Option (Str → Str → Rat))
    (ratio : Str → Str → Rat) (tbl : Option CustomerTable) (address_str : Str) :
    Option MatchResult :=
  match tbl with
  | none => none
  | some t =>
    if address_str = [] ∨ pyStrip address_str = [] then none
    else
      match momaxAllowSubset t with
      | none => none
      | some subset =>
          if subset = [] then none
          else
            let address1 := pyStrip address_str
            let addr_clean := _normalize_address_token address1
            let input_plz := extractPlz address1
            let input_street_loose := _normalize_loose_alnum address1
            let input_house := _extract_house_number_tokens address1
            let input_tokens := _street_tokens address1
            let candidates := subset.filterMap
              (momaxRowCandidate tsr ratio addr_clean input_plz input_street_loose
                input_house input_tokens)
            if candidates = [] then none
            else
              match (insSort momaxKeyLe candidates).head? with
              | none => none
              | some best =>
                some { kundennummer := cleanCell best.row.Kundennummer,
                       adressnummer := cleanCell best.row.Adressnummer,
                       tour := pyStrip best.row.Tour }

/-- The candidate customer number derived from a location identifier: the
trailing five digits (or all of them when only four); `none` when fewer than
four digits are present. -/
def ilnCandidate (iln_value : Str) : Option Str :=
  let iln_clean := pyReplace (str ".0") [] (pyStrip iln_value)
  let digits := iln_clean.filter isDig
  if digits.length < 4 then none
  else some (if digits.length ≥ 5 then digits.drop (digits.length - 5) else digits)

/-- Model of `lookup.find_kundennummer_by_iln`: derive a candidate customer
number from the trailing five digits of the location identifier and return
it only when verified against the Verband-filtered registry. -/
def find_kundennummer_by_iln (tbl : Option CustomerTable) (iln_value : Str) : Option Str :=
  match tbl with
  | none => none
  | some t =>
    if iln_value = [] then none
    else
      let iln_clean := pyReplace (str ".0") [] (pyStrip iln_value)
      if iln_clean = [] then none
      else
        match ilnCandidate iln_value with
        | none => none
        | some candidate =>
          let candidate_stripped := lstripZeroOr candidate
          if candidate_stripped = [] then none
          else
            let subset0 := t.rows.filter
              (fun r => _clean_kdnr (cleanCell r.Kundennummer) = _clean_kdnr candidate)
            match _filter_by_verband t.hasVerbandColumn subset0 with
            | none => none
            | some subset =>
              match subset.head? with
              | none => none
              | some first =>
                let kdnr := cleanCell first.Kundennummer
                if kdnr ≠ [] then some kdnr else none

-- ---------------------------------------------------------------------------
-- delivery_logic.py: delivery-week calculation
-- ---------------------------------------------------------------------------

/-- Model of `delivery_logic._get_valid_tour_weeks`: the sorted set of weeks
of the run-calendar column whose cell is present and numerically positive.
The column is given as `(week, value)` pairs in index order, `none`
modelling a NaN or non-convertible cell. -/
def _get_valid_tour_weeks (col : List (Int × Option Int)) : List Int :=
  insSort (fun a b => decide (a ≤ b))
    (((col.filter (fun p => match p.2 with
        | some v => decide (0 < v)
        | none => false)).map Prod.fst).dedup)

/-- Python `min(list)` on integers (`none` on the empty list the code never
passes). -/
def pyMinInt : List Int → Option Int
  | [] => none
  | x :: xs => some (xs.foldl min x)

/-- The `(week, year)` pair parsed from the requested-week text: the code
guards on the truthiness of `requested_week_str` and then consults
`_extract_week_year` (the oracle `extract`). -/
def requestedParse (requestedText : Option Str) (extract : Str → Option (Int × Int)) :
    Option (Int × Int) :=
  match requestedText with
  | some s => if s = [] then none else extract s
  | none => none

/-- Model of `delivery_logic.calculate_delivery_week`, starting after the
resolution steps that live in pandas/dateutil (modelled as oracle inputs):
`orderParse` is `(year, week)` from `parse(order_date_str).isocalendar()`
(`none` models an unparseable/missing order date, an untruthy tour, or a
missing schedule); `earliestPossible` is the right-table cell at the order
week for the resolved tour column (`none` when the tour or the cell is
absent); `calendarCol` is the left-table column of the tour's schedule code;
`requestedText` is the raw requested-week string and `extract` is the
`_extract_week_year` oracle (regex plus dateutil), returning `(week, year)`.
The returned `(year, week)` pair is `none` where the source returns `""`. -/
def calculate_delivery_week_core (orderParse : Option (Int × Int))
    (earliestPossible : Option Int) (calendarCol : List (Int × Option Int))
    (requestedText : Option Str) (extract : Str → Option (Int × Int)) :
    Option (Int × Int) :=
  match orderParse with
  | none => none
  | some (y_order, _) =>
    match earliestPossible with
    | none => none
    | some earliest_possible =>
      let valid_weeks := _get_valid_tour_weeks calendarCol
      if valid_weeks = [] then none
      else
        let req := requestedParse requestedText extract
        let min_allowed : Int := match req with
          | some (req_w, _) => max earliest_possible (req_w - 5)
          | none => earliest_possible
        let max_allowed : Option Int := match req with
          | some (req_w, _) => some (req_w + 1)
          | none => none
        let candidate_weeks := match max_allowed with
          | some ma =>
            let cw := valid_weeks.filter (fun w => decide (min_allowed ≤ w) && decide (w ≤ ma))
            if cw = [] then valid_weeks.filter (fun w => decide (ma < w)) else cw
          | none => valid_weeks.filter (fun w => decide (min_allowed ≤ w))
        match pyMinInt candidate_weeks with
        | none => none
        | some final_w =>
          let final_y : Int := match req with
            | some (_, req_y) => req_y
            | none => y_order
          some (final_y, final_w)

/-- Python `str(n)` for an integer. -/
def intToStr (n : Int) : Str :=
  match n with
  | Int.ofNat m => Nat.toDigits 10 m
  | Int.negSucc m => '-' :: Nat.toDigits 10 (m + 1)

/-- The result formatting of `calculate_delivery_week`:
`f"{final_y} Week - {final_w:02d}"`, `""` for no result. -/
def formatDeliveryWeek : Option (Int × Int) → Str
  | none => []
  | some (y, w) =>
    intToStr y ++ str " Week - " ++
      (if 0 ≤ w ∧ w < 10 then '0' :: intToStr w else intToStr w)

/-- The string-valued model of `delivery_logic.calculate_delivery_week`. -/
def calculate_delivery_week (orderParse : Option (Int × Int))
    (earliestPossible : Option Int) (calendarCol : List (Int × Option Int))
    (requestedText : Option Str) (extract : Str → Option (Int × Int)) : Str :=
  formatDeliveryWeek
    (calculate_delivery_week_core orderParse earliestPossible calendarCol requestedText extract)

-- ---------------------------------------------------------------------------
-- ai_customer_match.py: confidence-gated AI fallback write-back
-- ---------------------------------------------------------------------------

/-- A header field: either a bare string or the dict form carrying
value/source/derived_from/confidence. -/
inductive HeaderField where
  | plain (s : Str)
  | tagged (value source derived_from : Str) (confidence : Rat)
deriving Repr, DecidableEq

/-- The header fields `try_ai_customer_match` can write.  The many read-only
fields consulted when building shortlists and the order context only feed
the external call, which is the `callResult` oracle below. -/
structure Header where
  kundennummer : HeaderField
  adressnummer : HeaderField
  tour : HeaderField
  iln : HeaderField
deriving Repr, DecidableEq

/-- The `(derived_from, value)` view of the `kundennummer` field used by
`should_try_ai_customer_match`. -/
def headerKdnDerivedVal : HeaderField → Str × Str
  | .plain s => ([], pyStrip s)
  | .tagged v _ d _ => (pyStrip d, pyStrip v)

/-- `ai_customer_match._TRIGGER_WARNING_100`. -/
def _TRIGGER_WARNING_100 : Str := str "not 100% identical"

/-- `ai_customer_match._TRIGGER_WARNING_ILN`. -/
def _TRIGGER_WARNING_ILN : Str := str "ILN fallback"

/-- `ai_customer_match._CONFIDENCE_THRESHOLD` (`0.7`). -/
def _CONFIDENCE_THRESHOLD : Rat := Rat.divInt 7 10

/-- Model of `ai_customer_match.should_try_ai_customer_match`. -/
def should_try_ai_customer_match (h : Header) (warnings : List Str) : Bool :=
  let p := headerKdnDerivedVal h.kundennummer
  if p.2 = [] then true
  else if p.1 = str "iln_fallback" then true
  else warnings.any (fun w => hasSub _TRIGGER_WARNING_100 w || hasSub _TRIGGER_WARNING_ILN w)

/-- The parsed shape returned by `_parse_ai_match_response` on success:
all fields normalised to (possibly empty) strings and a float confidence
(defaulted to `0.0` by the parser when absent or unparseable). -/
structure AiResult where
  kundennummer : Str
  adressnummer : Str
  tour : Str
  iln : Str
  confidence : Rat
deriving Repr, DecidableEq

/-- The mandatory warning appended on an accepted AI write-back. -/
def AI_WARNING : Str :=
  str "Kundennummer/match chosen by AI (rules did not match 100%); please verify."

/-- Model of `ai_customer_match.try_ai_customer_match` as a state
transformer on `(header, warnings)`.  `parse` is the
`_parse_ai_match_response` oracle (its JSON decoding is external);
`callResult` models the guarded `_call_ai_match` call, `Except.error`
standing for any raised exception (caught and swallowed by the source).
The shortlist builders are read-only and only feed the call. -/
def try_ai_customer_match (parse : Str → Option AiResult)
    (callResult : Except Unit Str) (h : Header) (warnings : List Str) :
    Header × List Str :=
  if !should_try_ai_customer_match h warnings then (h, warnings)
  else
    match callResult with
    | .error _ => (h, warnings)
    | .ok text =>
      match parse text with
      | none => (h, warnings)
      | some r =>
        if r.confidence < _CONFIDENCE_THRESHOLD then (h, warnings)
        else if r.kundennummer = [] then (h, warnings)
        else
          ({ kundennummer :=
               .tagged r.kundennummer (str "derived") (str "ai_assisted_match") r.confidence,
             adressnummer :=
               .tagged r.adressnummer (str "derived") (str "ai_assisted_match") r.confidence,
             tour := .tagged r.tour (str "derived") (str "ai_assisted_match") r.confidence,
             iln := if r.iln ≠ [] then
                 .tagged r.iln (str "derived") (str "ai_assisted_match") r.confidence
               else h.iln },
           warnings ++ [AI_WARNING])

-- ---------------------------------------------------------------------------
-- Helper lemmas for the delivery-week theorems
-- ---------------------------------------------------------------------------

theorem foldl_min_le (xs : List Int) :
    ∀ (x y : Int), y ∈ x :: xs → xs.foldl min x ≤ y := by
  induction xs with
  | nil =>
    intro x y hy
    simp only [List.foldl_nil]
    rcases List.mem_cons.mp hy with rfl | h
    · exact le_refl _
    · simp at h
  | cons z zs ih =>
    intro x y hy
    simp only [List.foldl_cons]
    rcases List.mem_cons.mp hy with rfl | hy'
    · exact le_trans (ih (min y z) (min y z) (List.mem_cons_self _ _)) (min_le_left _ _)
    · rcases List.mem_cons.mp hy' with rfl | hy''
      · exact le_trans (ih (min x y) (min x y) (List.mem_cons_self _ _)) (min_le_right _ _)
      · exact ih (min x z) y (List.mem_cons_of_mem _ hy'')

theorem foldl_min_mem (xs : List Int) :
    ∀ (x : Int), xs.foldl min x = x ∨ xs.foldl min x ∈ xs := by
  induction xs with
  | nil => intro x; simp
  | cons z zs ih =>
    intro x
    simp only [List.foldl_cons]
    rcases ih (min x z) with h | h
    · rcases min_choice x z with hm | hm
      · exact Or.inl (h.trans hm)
      · exact Or.inr (by rw [h, hm]; exact List.mem_cons_self _ _)
    · exact Or.inr (List.mem_cons_of_mem _ h)

theorem pyMinInt_spec {l : List Int} {m : Int} (h : pyMinInt l = some m) :
    m ∈ l ∧ ∀ x ∈ l, m ≤ x := by
  match l with
  | [] => simp [pyMinInt] at h
  | x :: xs =>
    rw [pyMinInt, Option.some.injEq] at h
    subst h
    constructor
    · rcases foldl_min_mem xs x with h' | h'
      · rw [h']; exact List.mem_cons_self _ _
      · exact List.mem_cons_of_mem _ h'
    · exact fun y hy => foldl_min_le xs x y hy

-- ---------------------------------------------------------------------------
-- Claim theorems
-- ---------------------------------------------------------------------------

/-- C5: the AI-assisted fallback write-back never fires below threshold.  For
every header/warnings state: when the external call raises, when the parsed
response has confidence below `0.7`, when its customer number is empty, and
when the response does not parse at all, `try_ai_customer_match` leaves the
header and the warnings untouched. -/
theorem claim_C5 :
    (∀ (parse : Str → Option AiResult) (h : Header) (w : List Str) (e : Unit),
      try_ai_customer_match parse (Except.error e) h w = (h, w)) ∧
    (∀ (parse : Str → Option AiResult) (h : Header) (w : List Str) (text : Str) (r : AiResult),
      parse text = some r → r.confidence < _CONFIDENCE_THRESHOLD →
      try_ai_customer_match parse (Except.ok text) h w = (h, w)) ∧
    (∀ (parse : Str → Option AiResult) (h : Header) (w : List Str) (text : Str) (r : AiResult),
      parse text = some r → r.kundennummer = [] →
      try_ai_customer_match parse (Except.ok text) h w = (h, w)) ∧
    (∀ (parse : Str → Option AiResult) (h : Header) (w : List Str) (text : Str),
      parse text = none → try_ai_customer_match parse (Except.ok text) h w = (h, w)) := by
  refine ⟨?_, ?_, ?_, ?_⟩
  · intro parse h w e
    unfold try_ai_customer_match
    split
    · rfl
    · rfl
  · intro parse h w text r hp hc
    unfold try_ai_customer_match
    split
    · rfl
    · show (match parse text with
        | none => (h, w)
        | some r =>
          if r.confidence < _CONFIDENCE_THRESHOLD then (h, w)
          else if r.kundennummer = [] then (h, w)
          else _) = (h, w)
      rw [hp]
      simp only [if_pos hc]
  · intro parse h w text r hp hk
    unfold try_ai_customer_match
    split
    · rfl
    · show (match parse text with
        | none => (h, w)
        | some r =>
          if r.confidence < _CONFIDENCE_THRESHOLD then (h, w)
          else if r.kundennummer = [] then (h, w)
          else _) = (h, w)
      rw [hp]
      by_cases hc : r.confidence < _CONFIDENCE_THRESHOLD
      · simp only [if_pos hc]
      · simp only [if_neg hc, if_pos hk]
  · intro parse h w text hp
    unfold try_ai_customer_match
    split
    · rfl
    · show (match parse text with
        | none => (h, w)
        | some r =>
          if r.confidence < _CONFIDENCE_THRESHOLD then (h, w)
          else if r.kundennummer = [] then (h, w)
          else _) = (h, w)
      rw [hp]

/-- Witness for C5 at a concrete state: a parsed response with confidence
`0.69` and a non-empty customer number leaves a concrete header and warning
list unchanged. -/
theorem claim_C5_witness :
    ((fun _ => some (AiResult.mk (str "68935") (str "0") (str "T7") [] (Rat.divInt 69 100)))
        (str "json") = some (AiResult.mk (str "68935") (str "0") (str "T7") [] (Rat.divInt 69 100))) ∧
    try_ai_customer_match
      (fun _ => some (AiResult.mk (str "68935") (str "0") (str "T7") [] (Rat.divInt 69 100)))
      (Except.ok (str "json"))
      (Header.mk (HeaderField.plain []) (HeaderField.plain []) (HeaderField.plain [])
        (HeaderField.plain []))
      [] =
      (Header.mk (HeaderField.plain []) (HeaderField.plain []) (HeaderField.plain [])
        (HeaderField.plain []), []) :=
  ⟨rfl, claim_C5.2.1 _ _ _ _ _ rfl (by decide)⟩

/-- C9: an unparseable requested-week text degrades gracefully — the function
behaves exactly as if no requested week had been supplied (first conjunct),
and in that mode it picks the smallest valid tour week at or after the
earliest-possible week, formatted with the order's year (second conjunct). -/
theorem claim_C9 :
    (∀ (orderParse : Option (Int × Int)) (ep : Option Int)
        (col : List (Int × Option Int)) (s : Str) (extract : Str → Option (Int × Int)),
      extract s = none →
      calculate_delivery_week orderParse ep col (some s) extract =
        calculate_delivery_week orderParse ep col none extract) ∧
    (∀ (y_order w_order e : Int) (col : List (Int × Option Int))
        (extract : Str → Option (Int × Int)) (y w : Int),
      calculate_delivery_week_core (some (y_order, w_order)) (some e) col none extract
        = some (y, w) →
      y = y_order ∧ w ∈ _get_valid_tour_weeks col ∧ e ≤ w ∧
        ∀ v ∈ _get_valid_tour_weeks col, e ≤ v → w ≤ v) := by
  constructor
  · intro orderParse ep col s extract hs
    have hreq : requestedParse (some s) extract = requestedParse none extract := by
      unfold requestedParse
      by_cases h : s = []
      · simp [h]
      · simp [h, hs]
    unfold calculate_delivery_week calculate_delivery_week_core
    rw [hreq]
  · intro y_order w_order e col extract y w hcore
    unfold calculate_delivery_week_core at hcore
    simp only [requestedParse] at hcore
    split at hcore
    · exact absurd hcore (by simp)
    · rename_i hvw
      set cands := (_get_valid_tour_weeks col).filter (fun v => decide (e ≤ v)) with hcands
      match hmin : pyMinInt cands with
      | none => rw [hmin] at hcore; exact absurd hcore (by simp)
      | some m =>
        rw [hmin] at hcore
        simp only [Option.some.injEq, Prod.mk.injEq] at hcore
        obtain ⟨hy, hw⟩ := hcore
        subst hy hw
        obtain ⟨hmem, hle⟩ := pyMinInt_spec hmin
        rw [hcands] at hmem
        have hmem' := List.mem_filter.mp hmem
        refine ⟨rfl, hmem'.1, by simpa using hmem'.2, ?_⟩
        intro v hv hev
        exact hle v (by rw [hcands]; exact List.mem_filter.mpr ⟨hv, by simpa using hev⟩)

/-- Witness for C9 at concrete inputs: with an extractor that fails on the
text "next week please", the result equals the no-requested-week result, and
the concrete no-request run picks the smallest valid week at or after the
earliest-possible week 8 with the order's year. -/
theorem claim_C9_witness :
    calculate_delivery_week (some (2026, 3)) (some 8)
        [(6, some 1), (8, some 1), (10, some 1), (12, some 1)]
        (some (str "next week please")) (fun _ => none) =
      calculate_delivery_week (some (2026, 3)) (some 8)
        [(6, some 1), (8, some 1), (10, some 1), (12, some 1)] none (fun _ => none) :=
  claim_C9.1 _ _ _ _ _ rfl

/-- C2 counterexample: with earliest-possible week 10, valid tour weeks
{5, 20} and a requested week parsing to week 2, the window
`[max(10, 2-5), 2+1] = [10, 3]` is empty, and the overflow rule returns the
smallest valid week after the window — week 5, which is earlier than the
earliest-possible week 10.  This refutes the claim's unconditional "the
returned week is never less than the earliest-possible week". -/
theorem claim_C2_counterexample :
    calculate_delivery_week_core (some (2026, 1)) (some 10) [(5, some 1), (20, some 1)]
        (some (str "KW02/2026")) (fun _ => some (2, 2026)) = some (2026, 5) ∧
      ((5 : Int) < 10) := by
  constructor
  · decide
  · decide

/-- C2 (amended): the returned week is never less than the earliest-possible
week when no requested week parses; when one parses to week `req_w`, the
result either lies in `[earliest_possible, req_w + 1]`, or — exactly when no
valid tour week lies in the window `[max(earliest_possible, req_w - 5),
req_w + 1]` — it is the smallest valid week strictly greater than
`req_w + 1`, which may be earlier than the earliest-possible week. -/
theorem claim_C2 :
    ∀ (y_order w_order e : Int) (col : List (Int × Option Int))
      (rt : Option Str) (extract : Str → Option (Int × Int)) (y w : Int),
      calculate_delivery_week_core (some (y_order, w_order)) (some e) col rt extract
        = some (y, w) →
      match requestedParse rt extract with
      | none => e ≤ w
      | some (req_w, _) =>
        (e ≤ w ∧ w ≤ req_w + 1) ∨
        ((∀ v ∈ _get_valid_tour_weeks col, ¬(max e (req_w - 5) ≤ v ∧ v ≤ req_w + 1)) ∧
          req_w + 1 < w ∧ w ∈ _get_valid_tour_weeks col ∧
          ∀ v ∈ _get_valid_tour_weeks col, req_w + 1 < v → w ≤ v) := by
  intro y_order w_order e col rt extract y w hcore
  match hreq : requestedParse rt extract with
  | none =>
    simp only [calculate_delivery_week_core, hreq] at hcore
    split at hcore
    · exact absurd hcore (by simp)
    · set cands := (_get_valid_tour_weeks col).filter (fun v => decide (e ≤ v)) with hcands
      match hmin : pyMinInt cands with
      | none => rw [hmin] at hcore; exact absurd hcore (by simp)
      | some m =>
        rw [hmin] at hcore
        simp only [Option.some.injEq, Prod.mk.injEq] at hcore
        obtain ⟨hy, hw⟩ := hcore
        subst hy hw
        obtain ⟨hmem, _⟩ := pyMinInt_spec hmin
        rw [hcands] at hmem
        simpa using (List.mem_filter.mp hmem).2
  | some rp =>
    match rp with
    | (req_w, req_y) =>
      simp only [calculate_delivery_week_core, hreq] at hcore
      split at hcore
      · exact absurd hcore (by simp)
      · by_cases hwin : (_get_valid_tour_weeks col).filter
            (fun v => decide (max e (req_w - 5) ≤ v) && decide (v ≤ req_w + 1)) = []
        · rw [if_pos hwin] at hcore
          set cands := (_get_valid_tour_weeks col).filter (fun v => decide (req_w + 1 < v))
            with hcands
          match hmin : pyMinInt cands with
          | none => rw [hmin] at hcore; exact absurd hcore (by simp)
          | some m =>
            rw [hmin] at hcore
            simp only [Option.some.injEq, Prod.mk.injEq] at hcore
            obtain ⟨hy, hw⟩ := hcore
            subst hy hw
            obtain ⟨hmem, hle⟩ := pyMinInt_spec hmin
            rw [hcands] at hmem
            have hmem2 := List.mem_filter.mp hmem
            refine Or.inr ⟨?_, by simpa using hmem2.2, hmem2.1, ?_⟩
            · intro v hv hcon
              have hvmem : v ∈ (_get_valid_tour_weeks col).filter
                  (fun v => decide (max e (req_w - 5) ≤ v) && decide (v ≤ req_w + 1)) :=
                List.mem_filter.mpr ⟨hv, by simp [hcon.1, hcon.2]⟩
              rw [hwin] at hvmem
              simp at hvmem
            · intro v hv hgt
              exact hle v (by rw [hcands]; exact List.mem_filter.mpr ⟨hv, by simpa using hgt⟩)
        · rw [if_neg hwin] at hcore
          set cands := (_get_valid_tour_weeks col).filter
            (fun v => decide (max e (req_w - 5) ≤ v) && decide (v ≤ req_w + 1)) with hcands
          match hmin : pyMinInt cands with
          | none => rw [hmin] at hcore; exact absurd hcore (by simp)
          | some m =>
            rw [hmin] at hcore
            simp only [Option.some.injEq, Prod.mk.injEq] at hcore
            obtain ⟨hy, hw⟩ := hcore
            subst hy hw
            obtain ⟨hmem, _⟩ := pyMinInt_spec hmin
            rw [hcands] at hmem
            have hmem2 := List.mem_filter.mp hmem
            have h2 := hmem2.2
            simp only [Bool.and_eq_true, decide_eq_true_eq] at h2
            exact Or.inl ⟨le_trans (le_max_left _ _) h2.1, h2.2⟩

/-- Witness for C2 at concrete inputs: order week 3 of 2026, earliest-possible
week 8, valid weeks {8, 10, 12}, no requested week — the result is week 8,
which is at or after the earliest-possible week. -/
theorem claim_C2_witness :
    calculate_delivery_week_core (some (2026, 3)) (some 8)
        [(8, some 1), (10, some 1), (12, some 1)] none (fun _ => none) = some (2026, 8) ∧
      (8 : Int) ≤ 8 :=
  ⟨by decide, claim_C2 2026 3 8 [(8, some 1), (10, some 1), (12, some 1)] none
    (fun _ => none) 2026 8 (by decide)⟩

theorem head?_mem {α : Type} {l : List α} {a : α} (h : l.head? = some a) : a ∈ l := by
  cases l with
  | nil => simp at h
  | cons x xs =>
    simp only [List.head?_cons, Option.some.injEq] at h
    rw [← h]
    exact List.mem_cons_self _ _

/-- C6: `find_kundennummer_by_iln` returns a customer number only when the
candidate derived from the identifier's trailing five digits exists, after
cleaning, among the Verband-filtered rows (first conjunct); it returns
`none` when fewer than four digits are present (`ilnCandidate` is `none`
exactly then; second conjunct) and when no eligible row carries the cleaned
candidate (third conjunct). -/
theorem claim_C6 :
    (∀ (tbl : Option CustomerTable) (iln k : Str),
      find_kundennummer_by_iln tbl iln = some k →
      ∃ t cand row, tbl = some t ∧ ilnCandidate iln = some cand ∧
        row ∈ t.rows ∧ verbandOk row = true ∧
        _clean_kdnr (cleanCell row.Kundennummer) = _clean_kdnr cand) ∧
    (∀ (tbl : Option CustomerTable) (iln : Str),
      ilnCandidate iln = none → find_kundennummer_by_iln tbl iln = none) ∧
    (∀ (t : CustomerTable) (iln cand : Str),
      ilnCandidate iln = some cand →
      (∀ row ∈ t.rows, verbandOk row = true →
        _clean_kdnr (cleanCell row.Kundennummer) ≠ _clean_kdnr cand) →
      find_kundennummer_by_iln (some t) iln = none) := by
  refine ⟨?_, ?_, ?_⟩
  · intro tbl iln k h
    match tbl with
    | none => simp [find_kundennummer_by_iln] at h
    | some t =>
      match hcand : ilnCandidate iln with
      | none =>
        simp only [find_kundennummer_by_iln, hcand] at h
        split at h
        · exact absurd h (by simp)
        · split at h
          · exact absurd h (by simp)
          · exact absurd h (by simp)
      | some cand =>
        by_cases hvc : t.hasVerbandColumn
        · simp only [find_kundennummer_by_iln, hcand, _filter_by_verband, hvc, if_true] at h
          split at h
          · exact absurd h (by simp)
          · split at h
            · exact absurd h (by simp)
            · split at h
              · exact absurd h (by simp)
              · split at h
                · exact absurd h (by simp)
                · rename_i first hfirst
                  have hmem := head?_mem hfirst
                  have hmem1 := List.mem_filter.mp hmem
                  have hmem2 := List.mem_filter.mp hmem1.1
                  refine ⟨t, cand, first, rfl, rfl, hmem2.1, hmem1.2, ?_⟩
                  simpa using hmem2.2
        · simp only [find_kundennummer_by_iln, hcand, _filter_by_verband, hvc] at h
          split at h
          · exact absurd h (by simp)
          · split at h
            · exact absurd h (by simp)
            · split at h
              · exact absurd h (by simp)
              · simp at h
  · intro tbl iln hc
    match tbl with
    | none => rfl
    | some t =>
      simp only [find_kundennummer_by_iln, hc]
      split
      · rfl
      · split
        · rfl
        · rfl
  · intro t iln cand hcand hall
    simp only [find_kundennummer_by_iln, hcand, _filter_by_verband]
    split
    · rfl
    · split
      · rfl
      · split
        · rfl
        · split
          · rfl
          · have hnil : (t.rows.filter
                (fun r => _clean_kdnr (cleanCell r.Kundennummer) = _clean_kdnr cand)).filter
                  verbandOk = [] := by
              rw [List.filter_eq_nil_iff]
              intro row hrow
              have hrow1 := List.mem_filter.mp hrow
              intro hv
              exact hall row hrow1.1 hv (by simpa using hrow1.2)
            rename_i kdn2 heq
            by_cases hvc : t.hasVerbandColumn
            · rw [if_pos hvc] at heq
              simp only [Option.some.injEq] at heq
              rw [← heq, hnil]
              rfl
            · rw [if_neg hvc] at heq
              exact absurd heq (by simp)

/-- Witness for C6 at a concrete registry and identifier: the trailing five
digits of "40065920000027566" derive "27566", which exists among the
Verband-filtered rows. -/
theorem claim_C6_witness :
    ∃ t cand row,
      (some (CustomerTable.mk
        [Row.mk (str "27566") [] [] [] [] [] [] (str "0") (str "G2") (some 27750)] true)
        : Option CustomerTable) = some t ∧
      ilnCandidate (str "40065920000027566") = some cand ∧
      row ∈ t.rows ∧ verbandOk row = true ∧
      _clean_kdnr (cleanCell row.Kundennummer) = _clean_kdnr cand :=
  claim_C6.1 _ (str "40065920000027566") (str "27566") (by decide)

theorem momaxRowCandidate_row {tsr : Option (Str → Str → Rat)} {ratio : Str → Str → Rat}
    {addr_clean : Str} {input_plz : Option Str} {isl : Str} {ihouse itk : List Str}
    {r : Row} {c : MomaxCand}
    (h : momaxRowCandidate tsr ratio addr_clean input_plz isl ihouse itk r = some c) :
    c.row = r := by
  unfold momaxRowCandidate at h
  dsimp only at h
  split at h
  · exact absurd h (by simp)
  · split at h
    · exact absurd h (by simp)
    · split at h
      · exact absurd h (by simp)
      · simp only [Option.some.injEq] at h
        rw [← h]

theorem momaxAllowSubset_mem {t : CustomerTable} {subset : List Row}
    (h : momaxAllowSubset t = some subset) :
    ∀ row ∈ subset, _clean_kdnr (cleanCell row.Kundennummer) ∈
      MOMAX_BG_ALLOWED_KUNDENNUMMERN.map _clean_kdnr := by
  unfold momaxAllowSubset at h
  split at h
  · exact absurd h (by simp)
  · split at h
    · exact absurd h (by simp)
    · simp only [Option.some.injEq] at h
      intro row hrow
      rw [← h] at hrow
      simpa using (List.mem_filter.mp hrow).2

/-- C4: the region-restricted matcher only ever returns a customer number
whose cleaned form is in the fixed six-element allowlist (first conjunct),
and returns `none` when the allowlist-filtered candidate set is empty
(second conjunct) — by construction it never consults
`find_customer_by_address` at all. -/
theorem claim_C4 :
    (∀ (tsr : Option (Str → Str → Rat)) (ratio : Str → Str → Rat)
        (tbl : Option CustomerTable) (addr : Str) (r : MatchResult),
      find_momax_bg_customer_by_address tsr ratio tbl addr = some r →
      _clean_kdnr r.kundennummer ∈ MOMAX_BG_ALLOWED_KUNDENNUMMERN.map _clean_kdnr) ∧
    (∀ (tsr : Option (Str → Str → Rat)) (ratio : Str → Str → Rat)
        (t : CustomerTable) (addr : Str),
      momaxAllowSubset t = some [] →
      find_momax_bg_customer_by_address tsr ratio (some t) addr = none) := by
  constructor
  · intro tsr ratio tbl addr r h
    match tbl with
    | none => simp [find_momax_bg_customer_by_address] at h
    | some t =>
      match hsub : momaxAllowSubset t with
      | none => simp [find_momax_bg_customer_by_address, hsub] at h
      | some subset =>
        simp only [find_momax_bg_customer_by_address, hsub] at h
        split at h
        · exact absurd h (by simp)
        · split at h
          · exact absurd h (by simp)
          · split at h
            · exact absurd h (by simp)
            · split at h
              · exact absurd h (by simp)
              · rename_i best hbest
                have hmem := mem_insSort (head?_mem hbest)
                obtain ⟨row, hrow, hcand⟩ := List.mem_filterMap.mp hmem
                have hrr := momaxRowCandidate_row hcand
                simp only [Option.some.injEq] at h
                rw [← h]
                show _clean_kdnr (cleanCell best.row.Kundennummer) ∈ _
                rw [hrr]
                exact momaxAllowSubset_mem hsub row hrow
  · intro tsr ratio t addr hsub
    simp only [find_momax_bg_customer_by_address, hsub]
    split
    · rfl
    · rfl

/-- Witness for C4 at a concrete table and address for which the momax
matcher produces a result: its cleaned customer number is in the allowlist. -/
theorem claim_C4_witness :
    _clean_kdnr (MatchResult.mk (str "68935") (str "0") (str "T7")).kundennummer ∈
      MOMAX_BG_ALLOWED_KUNDENNUMMERN.map _clean_kdnr :=
  claim_C4.1 none (fun _ _ => 0)
    (some (CustomerTable.mk
      [Row.mk (str "68935") [] [] [] (str "Marktplatz.") (str "Sofia") [] (str "0")
        (str "T7") (some 27750)] true))
    (str "Marktplatz 5, Sofia")
    (MatchResult.mk (str "68935") (str "0") (str "T7"))
    (by decide)

/-- C8 counterexample: for the registry street "Marktplatz." (which carries
no house-number token) and the input "Marktplatz 5, Sofia", the row is
admitted as a candidate although it matches neither strictly nor fuzzily and
has no house-number corroboration — the token-coverage path also accepts
rows whose registry street has no house-number token at all. -/
theorem claim_C8_counterexample :
    (momaxRowCandidate none (fun _ _ => 0)
        (_normalize_address_token (pyStrip (str "Marktplatz 5, Sofia")))
        (extractPlz (pyStrip (str "Marktplatz 5, Sofia")))
        (_normalize_loose_alnum (pyStrip (str "Marktplatz 5, Sofia")))
        (_extract_house_number_tokens (pyStrip (str "Marktplatz 5, Sofia")))
        (_street_tokens (pyStrip (str "Marktplatz 5, Sofia")))
        (Row.mk (str "68935") [] [] [] (str "Marktplatz.") (str "Sofia") [] (str "0")
          (str "T7") (some 27750))).isSome = true ∧
    momaxStreetMatches (_normalize_address_token (pyStrip (str "Marktplatz 5, Sofia")))
      (Row.mk (str "68935") [] [] [] (str "Marktplatz.") (str "Sofia") [] (str "0")
        (str "T7") (some 27750)) = false ∧
    momaxFuzzyAccept false false false 0 = false ∧
    momaxHouseMatch (_extract_house_number_tokens (pyStrip (str "Marktplatz 5, Sofia")))
      (Row.mk (str "68935") [] [] [] (str "Marktplatz.") (str "Sofia") [] (str "0")
        (str "T7") (some 27750)) = false := by
  refine ⟨by decide, by decide, by decide, by decide⟩

/-- C8 (amended): a candidate admitted by the momax matcher that matches
neither strictly nor fuzzily was accepted by the token-coverage path, so its
token-coverage score is at least `0.75` and either a house-number token of
the registry street appears among the input's house-number tokens, or the
registry street contains no house-number token at all. -/
theorem claim_C8 :
    ∀ (tsr : Option (Str → Str → Rat)) (ratio : Str → Str → Rat) (addr_clean : Str)
      (input_plz : Option Str) (isl : Str) (ihouse itk : List Str) (r : Row) (c : MomaxCand),
      momaxRowCandidate tsr ratio addr_clean input_plz isl ihouse itk r = some c →
      momaxStreetMatches addr_clean r = false →
      momaxFuzzyAccept tsr.isSome (momaxStreetMatches addr_clean r) (momaxHouseMatch ihouse r)
        (momaxFuzzyScore tsr isl r) = false →
      (Rat.divInt 3 4 ≤ momaxTokenCoverage ratio itk r ∧
        (momaxHouseMatch ihouse r = true ∨ _extract_house_number_tokens r.Strasse = [])) := by
  intro tsr ratio addr_clean input_plz isl ihouse itk r c h hs hf
  unfold momaxRowCandidate at h
  dsimp only at h
  split at h
  · exact absurd h (by simp)
  · split at h
    · exact absurd h (by simp)
    · split at h
      · exact absurd h (by simp)
      · rename_i hcond
        have ht : momaxTokenAccept (momaxStreetMatches addr_clean r) (momaxHouseMatch ihouse r)
            (momaxTokenCoverage ratio itk r) (_extract_house_number_tokens r.Strasse) = true := by
          by_contra hneg
          rw [Bool.not_eq_true] at hneg
          rw [hs] at hf hneg
          exact hcond (by simp [hs, hf, hneg])
        unfold momaxTokenAccept at ht
        rw [hs] at ht
        simp only [Bool.not_false, Bool.true_and, Bool.and_eq_true, decide_eq_true_eq,
          Bool.or_eq_true] at ht
        refine ⟨ht.1, ?_⟩
        rcases ht.2 with h1 | h1
        · exact Or.inl h1
        · exact Or.inr (by simpa using h1)

/-- Witness for C8 at the concrete "Marktplatz." row: the admitted,
non-strict, non-fuzzy candidate indeed has token coverage at least `0.75`
and a registry street with no house-number token. -/
theorem claim_C8_witness :
    Rat.divInt 3 4 ≤ momaxTokenCoverage (fun _ _ => 0)
        (_street_tokens (pyStrip (str "Marktplatz 5, Sofia")))
        (Row.mk (str "68935") [] [] [] (str "Marktplatz.") (str "Sofia") [] (str "0")
          (str "T7") (some 27750)) ∧
      (momaxHouseMatch (_extract_house_number_tokens (pyStrip (str "Marktplatz 5, Sofia")))
          (Row.mk (str "68935") [] [] [] (str "Marktplatz.") (str "Sofia") [] (str "0")
            (str "T7") (some 27750)) = true ∨
        _extract_house_number_tokens
          (Row.mk (str "68935") [] [] [] (str "Marktplatz.") (str "Sofia") [] (str "0")
            (str "T7") (some 27750)).Strasse = []) :=
  claim_C8 none (fun _ _ => 0)
    (_normalize_address_token (pyStrip (str "Marktplatz 5, Sofia")))
    (extractPlz (pyStrip (str "Marktplatz 5, Sofia")))
    (_normalize_loose_alnum (pyStrip (str "Marktplatz 5, Sofia")))
    (_extract_house_number_tokens (pyStrip (str "Marktplatz 5, Sofia")))
    (_street_tokens (pyStrip (str "Marktplatz 5, Sofia")))
    (Row.mk (str "68935") [] [] [] (str "Marktplatz.") (str "Sofia") [] (str "0")
      (str "T7") (some 27750))
    (MomaxCand.mk
      (Row.mk (str "68935") [] [] [] (str "Marktplatz.") (str "Sofia") [] (str "0")
        (str "T7") (some 27750))
      false false false 100 68935)
    (by decide) (by decide) (by decide)

/-- C10: when `rapidfuzz` is unavailable (`tsr = none`), the matcher is
exactly the fuzzy-free pipeline — a strict street+city match fed to the
tie-break cascade, or the customer-number-hint fallback; no candidate is
ever accepted by a similarity score. -/
theorem claim_C10 :
    ∀ (t : CustomerTable) (address_str kundennummer kom_name : Str) (is_joop : Bool)
      (client_hint iln_company iln_filiale_hint : Str),
      find_customer_by_address none (some t) address_str kundennummer kom_name is_joop
          client_hint iln_company iln_filiale_hint =
        (if address_str = [] ∨ pyStrip address_str = [] then
          (if kundennummer ≠ [] then _match_by_kundennummer_fallback t kundennummer else none)
        else
          match fcbaSubset t (extractPlz (pyStrip address_str)) with
          | none => none
          | some subset =>
            if strictCandidates (fcbaAddrClean address_str iln_company) subset = [] then
              (if kundennummer ≠ [] then _match_by_kundennummer_fallback t kundennummer else none)
            else
              selectFromCandidates (extractPlz (pyStrip address_str)) iln_company
                iln_filiale_hint client_hint kom_name is_joop
                (strictCandidates (fcbaAddrClean address_str iln_company) subset)) := by
  intro t address_str kundennummer kom_name is_joop client_hint iln_company iln_filiale_hint
  unfold find_customer_by_address
  dsimp only

/-- C3: whenever the strict street+city pass yields at least one candidate,
the fuzzy fallback is never consulted (for every similarity oracle, present
or absent) and the result is exactly the tie-break cascade applied to the
strict candidates. -/
theorem claim_C3 :
    ∀ (tsr : Option (Str → Str → Rat)) (t : CustomerTable)
      (address_str kundennummer kom_name : Str) (is_joop : Bool)
      (client_hint iln_company iln_filiale_hint : Str) (subset : List Row),
      pyStrip address_str ≠ [] →
      fcbaSubset t (extractPlz (pyStrip address_str)) = some subset →
      strictCandidates (fcbaAddrClean address_str iln_company) subset ≠ [] →
      find_customer_by_address tsr (some t) address_str kundennummer kom_name is_joop
          client_hint iln_company iln_filiale_hint =
        selectFromCandidates (extractPlz (pyStrip address_str)) iln_company iln_filiale_hint
          client_hint kom_name is_joop
          (strictCandidates (fcbaAddrClean address_str iln_company) subset) := by
  intro tsr t address_str kundennummer kom_name is_joop client_hint iln_company
    iln_filiale_hint subset hne hsub hstrict
  have haddr : ¬(address_str = [] ∨ pyStrip address_str = []) := by
    rintro (h1 | h2)
    · exact hne (by rw [h1]; rfl)
    · exact hne h2
  simp only [find_customer_by_address, if_neg haddr, hsub]
  cases tsr with
  | none => dsimp only; rw [if_neg hstrict]
  | some f => dsimp only; rw [if_neg hstrict, if_neg hstrict]

/-- Witness for C3 at a concrete table and address with a strict match: the
overall result equals the cascade on the strict candidates. -/
theorem claim_C3_witness :
    find_customer_by_address none
        (some (CustomerTable.mk
          [Row.mk (str "7") [] [] [] (str "Marktplatz 5") (str "Sofia") (str "1000")
            (str "0") (str "T1") (some 27750)] true))
        (str "Marktplatz 5, 1000 Sofia") [] [] false [] [] [] =
      selectFromCandidates (extractPlz (pyStrip (str "Marktplatz 5, 1000 Sofia"))) [] [] [] []
        false
        (strictCandidates (fcbaAddrClean (str "Marktplatz 5, 1000 Sofia") [])
          [Row.mk (str "7") [] [] [] (str "Marktplatz 5") (str "Sofia") (str "1000")
            (str "0") (str "T1") (some 27750)]) :=
  claim_C3 none
    (CustomerTable.mk
      [Row.mk (str "7") [] [] [] (str "Marktplatz 5") (str "Sofia") (str "1000")
        (str "0") (str "T1") (some 27750)] true)
    (str "Marktplatz 5, 1000 Sofia") [] [] false [] [] []
    [Row.mk (str "7") [] [] [] (str "Marktplatz 5") (str "Sofia") (str "1000")
      (str "0") (str "T1") (some 27750)]
    (by decide) (by decide) (by decide)

/-- C1 counterexample: a customer whose only eligible row has
`Adressnummer "1"` is resolved through the customer-number-hint fallback
path (empty address, hint "5"), and the returned result carries
`adressnummer = "1"`, not `"0"`. -/
theorem claim_C1_counterexample :
    find_customer_by_address none
        (some (CustomerTable.mk
          [Row.mk (str "5") [] [] [] [] [] [] (str "1") (str "T") (some 27750)] true))
        [] (str "5") [] false [] [] [] =
      some (MatchResult.mk (str "5") (str "1") (str "T")) ∧
    (str "1") ≠ (str "0") :=
  ⟨by decide, by decide⟩

theorem selectFromCandidates_adr {plz : Option Str} {ic ifh ch kn : Str} {joop : Bool}
    {cands : List Row} {r : MatchResult}
    (h : selectFromCandidates plz ic ifh ch kn joop cands = some r) :
    pyStrip r.adressnummer = str "0" := by
  unfold selectFromCandidates at h
  dsimp only at h
  split at h
  · exact absurd h (by simp)
  · rename_i best hbest
    split at h
    · exact absurd h (by simp)
    · rename_i hadr
      rw [Decidable.not_not] at hadr
      simp only [Option.some.injEq] at h
      rw [← h]
      exact hadr

theorem filter_by_verband_some {b : Bool} {rows l : List Row}
    (h : _filter_by_verband b rows = some l) : l = rows.filter verbandOk := by
  unfold _filter_by_verband at h
  split at h
  · simp only [Option.some.injEq] at h
    exact h.symm
  · exact absurd h (by simp)

theorem fallback_eq (tbl : CustomerTable) (kdnr : Str) :
    _match_by_kundennummer_fallback tbl kdnr =
      if kdnr = [] then none
      else
        match _filter_by_verband tbl.hasVerbandColumn
            (tbl.rows.filter (fun r =>
              _clean_kdnr (cleanCell r.Kundennummer) = _clean_kdnr kdnr)) with
        | none => none
        | some kdn2 =>
          if kdn2 = [] then none
          else
            match (if kdn2.filter (fun r => cleanCell r.Adressnummer = str "0") ≠ [] then
                kdn2.filter (fun r => cleanCell r.Adressnummer = str "0")
              else kdn2).head? with
            | none => none
            | some best => some {
                kundennummer := pyReplace (str ".0") [] best.Kundennummer,
                adressnummer := pyReplace (str ".0") [] best.Adressnummer,
                tour := best.Tour } := rfl

theorem fallback_adr {t : CustomerTable} {k : Str} {r : MatchResult}
    (h : _match_by_kundennummer_fallback t k = some r) :
    pyStrip r.adressnummer = str "0" ∨
      ∀ row ∈ (t.rows.filter (fun row =>
          _clean_kdnr (cleanCell row.Kundennummer) = _clean_kdnr k)).filter verbandOk,
        cleanCell row.Adressnummer ≠ str "0" := by
  rw [fallback_eq] at h
  split at h
  · exact absurd h (by simp)
  · split at h
    · exact absurd h (by simp)
    · rename_i kdn2 heq
      have hkdn2 := filter_by_verband_some heq
      split at h
      · exact absurd h (by simp)
      · by_cases hz :
            kdn2.filter (fun row => cleanCell row.Adressnummer = str "0") ≠ []
        · rw [if_pos hz] at h
          split at h
          · exact absurd h (by simp)
          · rename_i best hbest
            left
            have hmem := head?_mem hbest
            have hprop := (List.mem_filter.mp hmem).2
            simp only [Option.some.injEq] at h
            rw [← h]
            simpa using hprop
        · rw [if_neg hz] at h
          rw [Decidable.not_not] at hz
          right
          intro row hrow
          rw [← hkdn2] at hrow
          have hne := List.filter_eq_nil_iff.mp hz row hrow
          simpa using hne

/-- C1 (amended): every result of `find_customer_by_address` either carries
an `adressnummer` whose stripped form is `"0"` (always the case for results
of the strict/fuzzy candidate path, whose final check hard-rejects anything
else), or it was produced by the customer-number-hint fallback for a
customer none of whose eligible rows has a cleaned `Adressnummer` of `"0"`
(the fallback prefers the main row but falls back to any row). -/
theorem claim_C1 :
    ∀ (tsr : Option (Str → Str → Rat)) (tbl : Option CustomerTable)
      (address_str kundennummer kom_name : Str) (is_joop : Bool)
      (client_hint iln_company iln_filiale_hint : Str) (r : MatchResult),
      find_customer_by_address tsr tbl address_str kundennummer kom_name is_joop client_hint
          iln_company iln_filiale_hint = some r →
      pyStrip r.adressnummer = str "0" ∨
        (∃ t, tbl = some t ∧ _match_by_kundennummer_fallback t kundennummer = some r ∧
          ∀ row ∈ (t.rows.filter (fun row =>
              _clean_kdnr (cleanCell row.Kundennummer) = _clean_kdnr kundennummer)).filter
                verbandOk,
            cleanCell row.Adressnummer ≠ str "0") := by
  intro tsr tbl address_str kundennummer kom_name is_joop client_hint iln_company
    iln_filiale_hint r h
  match tbl with
  | none => simp [find_customer_by_address] at h
  | some t =>
    unfold find_customer_by_address at h
    dsimp only at h
    by_cases haddr : (address_str = [] ∨ pyStrip address_str = [])
    · rw [if_pos haddr] at h
      by_cases hk : kundennummer ≠ []
      · rw [if_pos hk] at h
        rcases fallback_adr h with h1 | h1
        · exact Or.inl h1
        · exact Or.inr ⟨t, rfl, h, h1⟩
      · rw [if_neg hk] at h
        exact absurd h (by simp)
    · rw [if_neg haddr] at h
      have hkfall : ∀ (hh : (if kundennummer ≠ [] then
            _match_by_kundennummer_fallback t kundennummer else none) = some r),
          pyStrip r.adressnummer = str "0" ∨
            (∃ t2, (some t : Option CustomerTable) = some t2 ∧
              _match_by_kundennummer_fallback t2 kundennummer = some r ∧
              ∀ row ∈ (t2.rows.filter (fun row =>
                  _clean_kdnr (cleanCell row.Kundennummer) = _clean_kdnr kundennummer)).filter
                    verbandOk,
                cleanCell row.Adressnummer ≠ str "0") := by
        intro hh
        by_cases hk : kundennummer ≠ []
        · rw [if_pos hk] at hh
          rcases fallback_adr hh with h1 | h1
          · exact Or.inl h1
          · exact Or.inr ⟨t, rfl, hh, h1⟩
        · rw [if_neg hk] at hh
          exact absurd hh (by simp)
      split at h
      · exact absurd h (by simp)
      · rename_i subset hsub
        cases tsr with
        | none =>
          dsimp only at h
          by_cases hstrict :
              strictCandidates (fcbaAddrClean address_str iln_company) subset = []
          · rw [if_pos hstrict] at h
            exact hkfall h
          · rw [if_neg hstrict] at h
            exact Or.inl (selectFromCandidates_adr h)
        | some f =>
          dsimp only at h
          by_cases hstrict :
              strictCandidates (fcbaAddrClean address_str iln_company) subset = []
          · rw [if_pos hstrict] at h
            by_cases hfz : fuzzyCandidates f (extractPlz (pyStrip address_str))
                (fcbaAddrClean address_str iln_company) subset = []
            · rw [if_pos hfz] at h
              exact hkfall h
            · rw [if_neg hfz] at h
              exact Or.inl (selectFromCandidates_adr h)
          · rw [if_neg hstrict] at h
            rw [if_neg hstrict] at h
            exact Or.inl (selectFromCandidates_adr h)

/-- Witness for C1 at a concrete hint-fallback resolution whose customer has
a main (`Adressnummer "0"`) row: the stripped returned `adressnummer` is
`"0"`. -/
theorem claim_C1_witness :
    pyStrip (MatchResult.mk (str "7") (str "0") (str "T")).adressnummer = str "0" ∨
      (∃ t, (some (CustomerTable.mk
          [Row.mk (str "7") [] [] [] [] [] [] (str "0") (str "T") (some 27750)] true)
          : Option CustomerTable) = some t ∧
        _match_by_kundennummer_fallback t (str "7") =
          some (MatchResult.mk (str "7") (str "0") (str "T")) ∧
        ∀ row ∈ (t.rows.filter (fun row =>
            _clean_kdnr (cleanCell row.Kundennummer) = _clean_kdnr (str "7"))).filter verbandOk,
          cleanCell row.Adressnummer ≠ str "0") :=
  claim_C1 none
    (some (CustomerTable.mk
      [Row.mk (str "7") [] [] [] [] [] [] (str "0") (str "T") (some 27750)] true))
    [] (str "7") [] false [] [] []
    (MatchResult.mk (str "7") (str "0") (str "T"))
    (by decide)

/-- C7 fails as stated: `"stras se"` normalizes to `"strasse"` (the space is
removed after the street-word collapse has run), and a second pass collapses
that to `"str"`. -/
theorem claim_C7_counterexample :
    _normalize_address_token (_normalize_address_token (str "stras se")) ≠
      _normalize_address_token (str "stras se") := by decide

theorem repl_preserves {a : Char} {pat rep s : Str} (hs : a ∉ s) (hrep : a ∉ rep) :
    a ∉ pyReplace pat rep s :=
  fun h => (mem_pyReplace h).elim hs hrep

theorem not_mem_of_hasSub_single_false {a : Char} :
    ∀ {s : Str}, hasSub [a] s = false → a ∉ s := by
  intro s
  induction s with
  | nil => intro _ h; simp at h
  | cons c rest ih =>
    intro h hmem
    rw [hasSub, Bool.or_eq_false_iff] at h
    rcases List.mem_cons.mp hmem with rfl | hm
    · have h1 := h.1
      simp [List.isPrefixOf] at h1
    · exact ih h.2 hm

theorem lowered_pyReplace {pat rep s : Str} (hs : ∀ c ∈ s, pyLowerChar c = c)
    (hrep : ∀ c ∈ rep, pyLowerChar c = c) :
    ∀ c ∈ pyReplace pat rep s, pyLowerChar c = c :=
  fun c hc => (mem_pyReplace hc).elim (hs c) (hrep c)

theorem lowered_pyLower (s : Str) : ∀ c ∈ pyLower s, pyLowerChar c = c := by
  intro c hc
  rcases List.mem_map.mp hc with ⟨d, _, rfl⟩
  exact pyLowerChar_idem d

theorem not_mem_pyLower_c3 (s : Str) : 'Ã' ∉ pyLower s := by
  intro h
  rcases List.mem_map.mp h with ⟨d, _, hd⟩
  exact pyLowerChar_ne_c3 d hd

theorem pyLowerChar_eq_fffd {c : Char} (h : pyLowerChar c = '�') : c = '�' := by
  have ht := congrArg Char.toNat h
  rw [toNat_pyLowerChar] at ht
  have hn : c.toNat = 65533 := pyLowerNat_eq_fffd _ (ht.trans (by decide))
  exact char_eq_of_toNat_eq (hn.trans (by decide))

theorem not_mem_fix_mojibake_fffd (s : Str) : '�' ∉ _fix_mojibake s := by
  simp only [_fix_mojibake]
  split
  · exact not_mem_pyReplace_single (by decide)
  · rename_i h
    rw [Bool.not_eq_true] at h
    exact not_mem_of_hasSub_single_false h

theorem not_mem_pyLower_fffd {s : Str} (hs : '�' ∉ s) : '�' ∉ pyLower s := by
  intro h
  rcases List.mem_map.mp h with ⟨d, hd, hde⟩
  exact hs (pyLowerChar_eq_fffd hde ▸ hd)

theorem normalize_token_eq (s : Str) :
    _normalize_address_token s =
      pyReplace (str "/") [] (pyReplace (str "-") [] (pyReplace (str " ") []
        (pyReplace (str "str.") (str "str") (pyReplace (str "strabe") (str "str")
        (pyReplace (str "strase") (str "str") (pyReplace (str "strasse") (str "str")
        (pyReplace (str "straße") (str "str") (pyReplace (str "ß") (str "ss")
        (pyReplace (str "ü") (str "ue") (pyReplace (str "ö") (str "oe")
        (pyReplace (str "ä") (str "ae")
          (pyLower (_fix_mojibake s))))))))))))) := rfl

/-- C7 (amended): the street normalizer is not idempotent in general (see the
`"stras se"` counterexample), but it is idempotent on every input whose
once-normalized form contains none of the collapse patterns `"strasse"`,
`"strase"`, `"strabe"`, `"str."` — the re-collapsible substrings that a first
pass can create by deleting spaces, hyphens and slashes. -/
theorem claim_C7 (s : Str)
    (h1 : hasSub (str "strasse") (_normalize_address_token s) = false)
    (h2 : hasSub (str "strase") (_normalize_address_token s) = false)
    (h3 : hasSub (str "strabe") (_normalize_address_token s) = false)
    (h4 : hasSub (str "str.") (_normalize_address_token s) = false) :
    _normalize_address_token (_normalize_address_token s) =
      _normalize_address_token s := by
  have hsl : '/' ∉ _normalize_address_token s := by
    rw [normalize_token_eq]
    exact not_mem_pyReplace_single (by decide)
  have hhy : '-' ∉ _normalize_address_token s := by
    rw [normalize_token_eq]
    exact repl_preserves (not_mem_pyReplace_single (by decide)) (by decide)
  have hsp : ' ' ∉ _normalize_address_token s := by
    rw [normalize_token_eq]
    exact repl_preserves (repl_preserves (not_mem_pyReplace_single (by decide))
      (by decide)) (by decide)
  have hsz : 'ß' ∉ _normalize_address_token s := by
    rw [normalize_token_eq]
    exact repl_preserves (repl_preserves (repl_preserves (repl_preserves
      (repl_preserves (repl_preserves (repl_preserves (repl_preserves
        (not_mem_pyReplace_single (by decide)) (by decide)) (by decide)) (by decide))
        (by decide)) (by decide)) (by decide)) (by decide)) (by decide)
  have hue : 'ü' ∉ _normalize_address_token s := by
    rw [normalize_token_eq]
    exact repl_preserves (repl_preserves (repl_preserves (repl_preserves
      (repl_preserves (repl_preserves (repl_preserves (repl_preserves (repl_preserves
        (not_mem_pyReplace_single (by decide)) (by decide)) (by decide)) (by decide))
        (by decide)) (by decide)) (by decide)) (by decide)) (by decide)) (by decide)
  have hoe : 'ö' ∉ _normalize_address_token s := by
    rw [normalize_token_eq]
    exact repl_preserves (repl_preserves (repl_preserves (repl_preserves
      (repl_preserves (repl_preserves (repl_preserves (repl_preserves (repl_preserves
        (repl_preserves (not_mem_pyReplace_single (by decide)) (by decide))
      (by decide)) (by decide)) (by decide))
        (by decide)) (by decide)) (by decide)) (by decide)) (by decide)) (by decide)
  have hae : 'ä' ∉ _normalize_address_token s := by
    rw [normalize_token_eq]
    exact repl_preserves (repl_preserves (repl_preserves (repl_preserves
      (repl_preserves (repl_preserves (repl_preserves (repl_preserves (repl_preserves
        (repl_preserves (repl_preserves (not_mem_pyReplace_single (by decide))
      (by decide)) (by decide)) (by decide)) (by decide)) (by decide))
        (by decide)) (by decide)) (by decide)) (by decide)) (by decide)) (by decide)
  have hc3 : 'Ã' ∉ _normalize_address_token s := by
    rw [normalize_token_eq]
    exact repl_preserves (repl_preserves (repl_preserves (repl_preserves
      (repl_preserves (repl_preserves (repl_preserves (repl_preserves (repl_preserves
        (repl_preserves (repl_preserves (repl_preserves (not_mem_pyLower_c3 _)
      (by decide)) (by decide)) (by decide)) (by decide)) (by decide)) (by decide))
        (by decide)) (by decide)) (by decide)) (by decide)) (by decide)) (by decide)
  have hfffd : '�' ∉ _normalize_address_token s := by
    rw [normalize_token_eq]
    exact repl_preserves (repl_preserves (repl_preserves (repl_preserves
      (repl_preserves (repl_preserves (repl_preserves (repl_preserves (repl_preserves
        (repl_preserves (repl_preserves (repl_preserves
          (not_mem_pyLower_fffd (not_mem_fix_mojibake_fffd s))
      (by decide)) (by decide)) (by decide)) (by decide)) (by decide)) (by decide))
        (by decide)) (by decide)) (by decide)) (by decide)) (by decide)) (by decide)
  have hlowered : ∀ c ∈ _normalize_address_token s, pyLowerChar c = c := by
    rw [normalize_token_eq]
    exact lowered_pyReplace (lowered_pyReplace (lowered_pyReplace (lowered_pyReplace
      (lowered_pyReplace (lowered_pyReplace (lowered_pyReplace (lowered_pyReplace
        (lowered_pyReplace (lowered_pyReplace (lowered_pyReplace (lowered_pyReplace
          (lowered_pyLower _)
      (by decide)) (by decide)) (by decide)) (by decide)) (by decide)) (by decide))
        (by decide)) (by decide)) (by decide)) (by decide)) (by decide)) (by decide)
  have rc3 : ∀ (x : Char), hasSub ['Ã', x] (_normalize_address_token s) = false :=
    fun x => hasSub_false_of_not_mem (List.mem_cons_self _ _) hc3
  have hff : hasSub ['�'] (_normalize_address_token s) = false :=
    hasSub_false_of_not_mem (List.mem_cons_self _ _) hfffd
  have e1 : _fix_mojibake (_normalize_address_token s) = _normalize_address_token s := by
    simp only [_fix_mojibake]
    rw [pyReplace_of_hasSub_false (rc3 'ß'), pyReplace_of_hasSub_false (rc3 'Ÿ'),
      pyReplace_of_hasSub_false (rc3 '¼'), pyReplace_of_hasSub_false (rc3 '¤'),
      pyReplace_of_hasSub_false (rc3 '¶'), pyReplace_of_hasSub_false (rc3 '„'),
      pyReplace_of_hasSub_false (rc3 '–'), pyReplace_of_hasSub_false (rc3 'œ')]
    simp [hff]
  have elow : pyLower (_normalize_address_token s) = _normalize_address_token s := by
    have hmap : List.map pyLowerChar (_normalize_address_token s) =
        List.map id (_normalize_address_token s) :=
      List.map_congr_left fun c hc => hlowered c hc
    simpa [pyLower] using hmap
  have eae : pyReplace (str "ä") (str "ae") (_normalize_address_token s) =
      _normalize_address_token s :=
    pyReplace_of_hasSub_false
      (hasSub_false_of_not_mem (show ('ä' : Char) ∈ str "ä" by decide) hae)
  have eoe : pyReplace (str "ö") (str "oe") (_normalize_address_token s) =
      _normalize_address_token s :=
    pyReplace_of_hasSub_false
      (hasSub_false_of_not_mem (show ('ö' : Char) ∈ str "ö" by decide) hoe)
  have eue : pyReplace (str "ü") (str "ue") (_normalize_address_token s) =
      _normalize_address_token s :=
    pyReplace_of_hasSub_false
      (hasSub_false_of_not_mem (show ('ü' : Char) ∈ str "ü" by decide) hue)
  have esz1 : pyReplace (str "ß") (str "ss") (_normalize_address_token s) =
      _normalize_address_token s :=
    pyReplace_of_hasSub_false
      (hasSub_false_of_not_mem (show ('ß' : Char) ∈ str "ß" by decide) hsz)
  have esz2 : pyReplace (str "straße") (str "str") (_normalize_address_token s) =
      _normalize_address_token s :=
    pyReplace_of_hasSub_false
      (hasSub_false_of_not_mem (show ('ß' : Char) ∈ str "straße" by decide) hsz)
  have ess : pyReplace (str "strasse") (str "str") (_normalize_address_token s) =
      _normalize_address_token s := pyReplace_of_hasSub_false h1
  have ese : pyReplace (str "strase") (str "str") (_normalize_address_token s) =
      _normalize_address_token s := pyReplace_of_hasSub_false h2
  have ebe : pyReplace (str "strabe") (str "str") (_normalize_address_token s) =
      _normalize_address_token s := pyReplace_of_hasSub_false h3
  have edot : pyReplace (str "str.") (str "str") (_normalize_address_token s) =
      _normalize_address_token s := pyReplace_of_hasSub_false h4
  have esp : pyReplace (str " ") [] (_normalize_address_token s) =
      _normalize_address_token s :=
    pyReplace_of_hasSub_false
      (hasSub_false_of_not_mem (show (' ' : Char) ∈ str " " by decide) hsp)
  have ehy : pyReplace (str "-") [] (_normalize_address_token s) =
      _normalize_address_token s :=
    pyReplace_of_hasSub_false
      (hasSub_false_of_not_mem (show ('-' : Char) ∈ str "-" by decide) hhy)
  have esl : pyReplace (str "/") [] (_normalize_address_token s) =
      _normalize_address_token s :=
    pyReplace_of_hasSub_false
      (hasSub_false_of_not_mem (show ('/' : Char) ∈ str "/" by decide) hsl)
  rw [normalize_token_eq (_normalize_address_token s), e1, elow, eae, eoe, eue, esz1, esz2,
    ess, ese, ebe, edot, esp, ehy, esl]

/-- Witness for C7 at `"Hauptstraße 5"`: its normalized form `"hauptstr5"`
contains none of the collapse patterns, and renormalizing fixes it. -/
theorem claim_C7_witness :
    hasSub (str "strasse") (_normalize_address_token (str "Hauptstraße 5")) = false ∧
    hasSub (str "strase") (_normalize_address_token (str "Hauptstraße 5")) = false ∧
    hasSub (str "strabe") (_normalize_address_token (str "Hauptstraße 5")) = false ∧
    hasSub (str "str.") (_normalize_address_token (str "Hauptstraße 5")) = false ∧
    _normalize_address_token (_normalize_address_token (str "Hauptstraße 5")) =
      _normalize_address_token (str "Hauptstraße 5") :=
  ⟨by decide, by decide, by decide, by decide,
    claim_C7 (str "Hauptstraße 5") (by decide) (by decide) (by decide) (by decide)⟩
